import Mathlib

/-!
# GIF unit A+D register handling (pcsx2/Gif_Unit.cpp)

A shallow embedding of `Gif_Unit.cpp`: the register handlers
`Gif_HandlerAD` (primary thread), `Gif_HandlerAD_MTVU` (worker thread) and
`Gif_HandlerAD_Debug`, the poll `Gif_FinishIRQ`, and the save-state
functions `gifPathFreeze` and `gifFreeze`.  The sector arithmetic of
`CDVD/CDVDdiscReader.cpp` follows in the namespace `CDVD`.

Machine integers are natural numbers; a `u32` read is `% 2 ^ 32`, a `u8`
read is `% 256`.  Global emulator state touched by the handlers
(`gifUnit`, `GSSIGLBLID`, `CSRreg`, `GSIMR`, `vif1`) is gathered in one
record that is passed explicitly.  Calls of `gsIrq()` are counted, calls of
`Console.Error` are appended to a log.  `GUNIT_WARN` is the compiled-out
trace of the GIF unit and has no counterpart here.
-/

namespace Gif

/-! ## Machine words -/

/-- Value of a `u8` variable. -/
def u8 (x : Nat) : Nat := x % 256

/-- Value of a `u32` variable. -/
def u32 (x : Nat) : Nat := x % 2 ^ 32

/-- Value of a `u64` variable. -/
def u64 (x : Nat) : Nat := x % 2 ^ 64

/-- Bitwise complement `~x` of a `u32`. -/
def not32 (x : Nat) : Nat := u32 x ^^^ 0xFFFFFFFF

/-! ## Register ids

The `GIF_A_D_REG_*` enumerators are declared in a header; their values are
the GS register numbers, the same literals `Gif_HandlerAD_Debug` compares
against. -/

def GIF_A_D_REG_BITBLTBUF : Nat := 0x50
def GIF_A_D_REG_TRXPOS : Nat := 0x51
def GIF_A_D_REG_TRXREG : Nat := 0x52
def GIF_A_D_REG_TRXDIR : Nat := 0x53
def GIF_A_D_REG_SIGNAL : Nat := 0x60
def GIF_A_D_REG_FINISH : Nat := 0x61
def GIF_A_D_REG_LABEL : Nat := 0x62

/-! ## The A+D record -/

/-- One A+D record as the handlers read it through `pMem`: the two
little-endian 32-bit words of the payload (`data[0]`, bytes 0..3 and
`data[1]`, bytes 4..7) and the selector byte `pMem[8]`. -/
structure ADPacket where
  lo : Nat
  hi : Nat
  sel : Nat
  deriving DecidableEq, Repr

namespace ADPacket

/-- Word `data[0]` of the payload. -/
def data0 (p : ADPacket) : Nat := u32 p.lo

/-- Word `data[1]` of the payload. -/
def data1 (p : ADPacket) : Nat := u32 p.hi

/-- Byte `pMem[0]`, the low byte of `data[0]`. -/
def byte0 (p : ADPacket) : Nat := u8 p.lo

/-- Byte `pMem[8]`, the register selector. -/
def reg (p : ADPacket) : Nat := u8 p.sel

/-- The payload read as one 64-bit value, `*(u64*)pMem`. -/
def qword (p : ADPacket) : Nat := p.data1 * 2 ^ 32 + p.data0

end ADPacket

/-! ## Unit state -/

/-- Buffered stalling SIGNAL, `gifUnit.gsSIGNAL`. -/
structure GS_SIGNAL where
  data0 : Nat
  data1 : Nat
  queued : Bool
  deriving DecidableEq, Repr

/-- Two-phase FINISH state, `gifUnit.gsFINISH`. -/
structure GS_FINISH where
  gsFINISHFired : Bool
  gsFINISHPending : Bool
  deriving DecidableEq, Repr

/-- The fields of `GSSIGLBLID`. -/
structure SIGLBLID where
  SIGID : Nat
  LBLID : Nat
  deriving DecidableEq, Repr

/-- The flags of the GS control-status register `CSRreg` the handlers use. -/
structure CSR where
  SIGNAL : Bool
  FINISH : Bool
  deriving DecidableEq, Repr

/-- The mask bits of the GS interrupt-mask register `GSIMR` the handlers use. -/
structure IMR where
  SIGMSK : Bool
  FINISHMSK : Bool
  deriving DecidableEq, Repr

/-- The part of `vif1` the handler writes: the raw transfer registers
BITBLTBUF, TRXPOS, TRXREG (`transfer_registers[0..2]`) and the size of the
last download. -/
structure VifXfer where
  reg0 : Nat
  reg1 : Nat
  reg2 : Nat
  GSLastDownloadSize : Nat
  deriving DecidableEq, Repr

/-- Messages passed to `Console.Error` by the primary-thread handler. -/
inductive LogMsg where
  | illegalFormat (spsm : Nat)
  deriving DecidableEq, Repr

/-- Everything `Gif_HandlerAD` and `Gif_FinishIRQ` read or write. -/
structure GifState where
  gsSIGNAL : GS_SIGNAL
  gsFINISH : GS_FINISH
  GSSIGLBLID : SIGLBLID
  CSRreg : CSR
  GSIMR : IMR
  vif1 : VifXfer
  irqs : Nat
  log : List LogMsg
  deriving DecidableEq, Repr

/-- The call `gsIrq()`: one more GS interrupt raised. -/
def gsIrq (s : GifState) : GifState := { s with irqs := s.irqs + 1 }

/-- The assignment `vif1.transfer_registers[i] = v`, for `i` in `0..2`. -/
def VifXfer.setReg (v : VifXfer) (i : Nat) (x : Nat) : VifXfer :=
  match i with
  | 0 => { v with reg0 := x }
  | 1 => { v with reg1 := x }
  | _ => { v with reg2 := x }

/-- Modelled from the spec: the bit-field declaration of `vif1.BITBLTBUF`
is missing; the stored pixel-format field SPSM is taken at its place in the
GS register format, the 6-bit field at bits 24..29 of the raw BITBLTBUF
register, which overlays `transfer_registers[0]`. -/
def VifXfer.SPSM (v : VifXfer) : Nat := (v.reg0 / 2 ^ 24) % 64

/-- Modelled from the spec: the bit-field declaration of `vif1.TRXREG` is
missing; the rectangle width RRW is taken at its place in the GS register
format, the 12-bit field at bits 0..11 of the raw TRXREG register, which
overlays `transfer_registers[2]`. -/
def VifXfer.RRW (v : VifXfer) : Nat := v.reg2 % 4096

/-- Modelled from the spec: the bit-field declaration of `vif1.TRXREG` is
missing; the rectangle height RRH is taken at its place in the GS register
format, the 12-bit field at bits 32..43 of the raw TRXREG register. -/
def VifXfer.RRH (v : VifXfer) : Nat := (v.reg2 / 2 ^ 32) % 4096

/-! ## Label merge -/

/-- The masked register write `(d & ~mask) | (data & mask)` on `u32`
operands, as written in the SIGNAL and LABEL branches of `Gif_HandlerAD`
and in the retry loop of `Gif_HandlerAD_MTVU`. -/
def maskedWrite (d data mask : Nat) : Nat :=
  (d &&& not32 mask) ||| (data &&& mask)

/-- Body of the retry loop of `Gif_HandlerAD_MTVU` on the unpacked label
cell: from the `u32` halves `(existingData, existingMsk)` of the cell and
the record's `u32` words `(labelData, labelMsk)` to
`(wantedData, wantedMsk)`. -/
def merge (e p : Nat × Nat) : Nat × Nat :=
  let existingData := u32 e.1
  let existingMsk := u32 e.2
  let labelData := u32 p.1
  let labelMsk := u32 p.2
  (maskedWrite existingData labelData labelMsk, existingMsk ||| labelMsk)

/-! ## Gif_HandlerAD -/

/-- The `switch` on the pixel format in the TRXDIR branch: the value left
in the local `bpp` (initialised to 32) and the error logged, if any. -/
def bppOfFormat (spsm : Nat) : Nat × Option LogMsg :=
  match spsm &&& 7 with
  | 0 => (32, none)
  | 1 => (24, none)
  | 2 => (16, none)
  | 3 => (8, none)
  | _ => (32, some (LogMsg.illegalFormat spsm))

/-- TRXDIR branch of `Gif_HandlerAD`. -/
def handleTRXDIR (s : GifState) (p : ADPacket) : GifState :=
  if p.byte0 &&& 3 = 1 then
    let sw := bppOfFormat s.vif1.SPSM
    let bpp := sw.1
    let log := match sw.2 with
      | some m => s.log ++ [m]
      | none => s.log
    { s with
      log := log
      vif1 := { s.vif1 with
        GSLastDownloadSize := u32 (s.vif1.RRW * s.vif1.RRH * bpp) >>> 7 } }
  else s

/-- SIGNAL branch of `Gif_HandlerAD`. -/
def handleSIGNAL (s : GifState) (p : ADPacket) : GifState × Bool :=
  if s.CSRreg.SIGNAL then
    if !s.gsSIGNAL.queued then
      ({ s with gsSIGNAL := { queued := true, data0 := p.data0, data1 := p.data1 } },
        true)
    else (s, false)
  else
    let s1 : GifState :=
      { s with GSSIGLBLID :=
          { s.GSSIGLBLID with SIGID := maskedWrite s.GSSIGLBLID.SIGID p.data0 p.data1 } }
    let s2 := if !s1.GSIMR.SIGMSK then gsIrq s1 else s1
    ({ s2 with CSRreg := { s2.CSRreg with SIGNAL := true } }, false)

/-- The primary-thread handler `bool Gif_HandlerAD(u8* pMem)`: the new
state and the returned flag (true on a stalling SIGNAL). -/
def Gif_HandlerAD (s : GifState) (p : ADPacket) : GifState × Bool :=
  let reg := p.reg
  if GIF_A_D_REG_BITBLTBUF ≤ reg ∧ reg ≤ GIF_A_D_REG_TRXREG then
    ({ s with vif1 := s.vif1.setReg (reg - GIF_A_D_REG_BITBLTBUF) p.qword }, false)
  else if reg = GIF_A_D_REG_TRXDIR then
    (handleTRXDIR s p, false)
  else if reg = GIF_A_D_REG_SIGNAL then
    handleSIGNAL s p
  else if reg = GIF_A_D_REG_FINISH then
    ({ s with gsFINISH := { gsFINISHFired := false, gsFINISHPending := true } }, false)
  else if reg = GIF_A_D_REG_LABEL then
    ({ s with GSSIGLBLID :=
        { s.GSSIGLBLID with LBLID := maskedWrite s.GSSIGLBLID.LBLID p.data0 p.data1 } },
      false)
  else
    (s, false)

/-- Feeding a sequence of records to `Gif_HandlerAD`, one call per record,
whatever each call returns. -/
def feed (s : GifState) (ps : List ADPacket) : GifState :=
  ps.foldl (fun st p => (Gif_HandlerAD st p).1) s

/-! ## Gif_FinishIRQ -/

/-- The poll `void Gif_FinishIRQ()`. -/
def Gif_FinishIRQ (s : GifState) : GifState :=
  let s1 : GifState :=
    if s.gsFINISH.gsFINISHPending then
      { s with CSRreg := { s.CSRreg with FINISH := true },
               gsFINISH := { s.gsFINISH with gsFINISHPending := false } }
    else s
  if s1.CSRreg.FINISH ∧ !s1.GSIMR.FINISHMSK ∧ !s1.gsFINISH.gsFINISHFired then
    let s2 := gsIrq s1
    { s2 with gsFINISH := { s2.gsFINISH with gsFINISHFired := true } }
  else s1

/-- What the rest of the emulator does between two polls, as far as
`Gif_FinishIRQ` can see it: the finish-mask bit and the control-status
FINISH flag are overwritten with arbitrary values. -/
def setFinishEnv (s : GifState) (e : Bool × Bool) : GifState :=
  { s with GSIMR := { s.GSIMR with FINISHMSK := e.1 },
           CSRreg := { s.CSRreg with FINISH := e.2 } }

/-- A run of polls: before each call of `Gif_FinishIRQ` the environment
sets the finish-mask bit and `CSRreg.FINISH` to the next pair of `env`. -/
def pollRun (s : GifState) (env : List (Bool × Bool)) : GifState :=
  env.foldl (fun st e => Gif_FinishIRQ (setFinishEnv st e)) s

/-! ## Sample inputs -/

/-- A unit state with nothing pending and nothing masked. -/
def idleState : GifState :=
  { gsSIGNAL := { data0 := 0, data1 := 0, queued := false }
    gsFINISH := { gsFINISHFired := false, gsFINISHPending := false }
    GSSIGLBLID := { SIGID := 0xAABBCCDD, LBLID := 0x11223344 }
    CSRreg := { SIGNAL := false, FINISH := false }
    GSIMR := { SIGMSK := false, FINISHMSK := false }
    vif1 := { reg0 := 0, reg1 := 0, reg2 := 0, GSLastDownloadSize := 0 }
    irqs := 0
    log := [] }

/-- A unit state whose previous SIGNAL has not been acknowledged yet. -/
def signalledState : GifState :=
  { idleState with CSRreg := { SIGNAL := true, FINISH := false } }

/-- A unit state stalled on a buffered SIGNAL. -/
def stalledState : GifState :=
  { signalledState with gsSIGNAL := { data0 := 0x55, data1 := 0xFF, queued := true } }

/-- A unit state with a FINISH written and not yet polled. -/
def finishPendingState : GifState :=
  { idleState with gsFINISH := { gsFINISHFired := false, gsFINISHPending := true } }

/-- A SIGNAL record writing `0x12345678` under mask `0x0000FFFF`. -/
def signalPacket : ADPacket := { lo := 0x12345678, hi := 0x0000FFFF, sel := 0x60 }

/-- A FINISH record. -/
def finishPacket : ADPacket := { lo := 0, hi := 0, sel := 0x61 }

/-- A LABEL record writing `0xCAFEF00D` under mask `0xFF00FF00`. -/
def labelPacket : ADPacket := { lo := 0xCAFEF00D, hi := 0xFF00FF00, sel := 0x62 }

/-- A sequence of three distinct `(data, mask)` pairs with pairwise
disjoint masks, one of them applied twice. -/
def labelRunA : List (Nat × Nat) :=
  [(0x12, 0xFF), (0x3400, 0xFF00), (0x12, 0xFF), (0x560000, 0xFF0000)]

/-- The pairs of `labelRunA` in another order and with other repetitions. -/
def labelRunB : List (Nat × Nat) :=
  [(0x560000, 0xFF0000), (0x3400, 0xFF00), (0x3400, 0xFF00), (0x12, 0xFF)]

/-! ## Gif_HandlerAD_MTVU

The worker-thread handler talks to the primary thread through three atomic
cells of `vu1Thread`.  One call is embedded as a sequence of atomic steps on
these cells; what other threads do to the label cell between two attempts of
the retry loop is given by a schedule. -/

/-- Modelled from the spec: the enumerators `VU_Thread::InterruptFlag*` are
declared in a header; the pending-event bitmask has one bit for each of
Finish, Signal and Label. -/
def InterruptFlagFinish : Nat := 1

/-- Modelled from the spec: the Signal bit of the pending-event bitmask. -/
def InterruptFlagSignal : Nat := 2

/-- Modelled from the spec: the Label bit of the pending-event bitmask. -/
def InterruptFlagLabel : Nat := 4

/-- Messages the worker-thread handler passes to `Console.Error` and
`DevCon.Warning`. -/
inductive MtvuLog where
  | doubleSignal
  | doubleFinish
  | unknownRegister (reg : Nat)
  deriving DecidableEq, Repr

/-- The cells of `vu1Thread` the handler uses: the 64-bit signal cell
`gsSignal`, the 64-bit label cell `gsLabel` (mask in the high word, data in
the low word), the 32-bit pending-event bitmask `mtvuInterrupts`, and the
messages logged so far. -/
structure VU_Thread where
  gsSignal : Nat
  gsLabel : Nat
  mtvuInterrupts : Nat
  log : List MtvuLog
  deriving DecidableEq, Repr

/-- The expression `((u64)hi << 32) | lo` on two `u32` operands. -/
def pack64 (hi lo : Nat) : Nat := (u32 hi <<< 32) ||| u32 lo

/-- The low word `(u32)x` and the high word `(u32)(x >> 32)` of a packed
cell, as `(data, mask)`. -/
def unpack64 (x : Nat) : Nat × Nat := (u32 x, u32 (x >>> 32))

/-- What surrounds one attempt of `compare_exchange_weak`: a store to the
label cell by another thread that lands before the attempt, if any, and
whether the attempt fails spuriously. -/
structure Interference where
  write : Option Nat
  spurious : Bool
  deriving DecidableEq, Repr

/-- The retry loop `while (!gsLabel.compare_exchange_weak(existing, wanted))`
of the LABEL branch, from attempt number `k` on: `cell` is the label cell,
`existing` and `wanted` the two locals.  An attempt succeeds when the cell
equals `existing` and the attempt does not fail spuriously, and the cell
then holds `wanted`, which is returned; a failed attempt loads the cell into
`existing` and the loop body recomputes `wanted`.  `none` when `fuel`
attempts were not enough. -/
def labelRetry : Nat → (Nat → Interference) → Nat → Nat → Nat → Nat → Nat → Nat → Option Nat
  | 0, _, _, _, _, _, _, _ => none
  | fuel + 1, sched, k, cell, existing, wanted, labelData, labelMsk =>
    let cell1 := match (sched k).write with
      | some v => u64 v
      | none => cell
    if cell1 = existing ∧ (sched k).spurious = false then
      some wanted
    else
      let existing1 := cell1
      let w := merge (unpack64 existing1) (labelData, labelMsk)
      labelRetry fuel sched (k + 1) cell1 existing1 (pack64 w.2 w.1) labelData labelMsk

/-- The worker-thread handler `void Gif_HandlerAD_MTVU(u8* pMem)`: the cells
after the call, `none` when the retry loop of the LABEL branch did not exit
within `fuel` attempts under the schedule `sched`. -/
def Gif_HandlerAD_MTVU (fuel : Nat) (sched : Nat → Interference) (t : VU_Thread)
    (p : ADPacket) : Option VU_Thread :=
  let reg := u8 (p.reg &&& 0x7f)
  if reg = GIF_A_D_REG_SIGNAL then
    let t1 : VU_Thread :=
      if t.mtvuInterrupts &&& InterruptFlagSignal ≠ 0 then
        { t with log := t.log ++ [MtvuLog.doubleSignal] }
      else t
    some { t1 with
      gsSignal := pack64 p.data1 p.data0
      mtvuInterrupts := t1.mtvuInterrupts ||| InterruptFlagSignal }
  else if reg = GIF_A_D_REG_FINISH then
    let old := t.mtvuInterrupts
    let t1 : VU_Thread := { t with mtvuInterrupts := old ||| InterruptFlagFinish }
    if old &&& InterruptFlagFinish ≠ 0 then
      some { t1 with log := t1.log ++ [MtvuLog.doubleFinish] }
    else some t1
  else if reg = GIF_A_D_REG_LABEL then
    let labelData := p.data0
    let labelMsk := p.data1
    match labelRetry fuel sched 0 t.gsLabel 0 (pack64 labelMsk labelData) labelData labelMsk with
    | none => none
    | some cell =>
      some { t with
        gsLabel := cell
        mtvuInterrupts := t.mtvuInterrupts ||| InterruptFlagLabel }
  else if 0x63 ≤ reg ∧ reg ≠ 0x7f then
    some { t with log := t.log ++ [MtvuLog.unknownRegister reg] }
  else some t

/-- The schedule of a call during which no other thread writes the label
cell: attempt `k` fails spuriously when `sp` says so, and no attempt after
the end of `sp` does. -/
def quiet (sp : List Bool) : Nat → Interference :=
  fun k => { write := none, spurious := sp.getD k false }

/-- Feeding a sequence of records to `Gif_HandlerAD_MTVU` while no other
thread writes the label cell; each record comes with the spurious failures
of its compare-and-exchange attempts. -/
def mtvuFeed (t : VU_Thread) : List (ADPacket × List Bool) → Option VU_Thread
  | [] => some t
  | (p, sp) :: rest =>
    match Gif_HandlerAD_MTVU (sp.length + 2) (quiet sp) t p with
    | none => none
    | some t1 => mtvuFeed t1 rest

/-- The cells of a worker thread with nothing pending. -/
def idleThread : VU_Thread :=
  { gsSignal := 0, gsLabel := 0, mtvuInterrupts := 0, log := [] }

/-- The cells of a worker thread with a Finish and a Label event pending. -/
def busyThread : VU_Thread :=
  { gsSignal := 0x1111111122222222, gsLabel := 0x000000FF00000012,
    mtvuInterrupts := 5, log := [] }

/-- A BITBLTBUF record storing the pixel format `spsm`. -/
def bitbltPacket (spsm : Nat) : ADPacket := { lo := spsm <<< 24, hi := 0, sel := 0x50 }

/-- A TRXREG record storing a `w` by `h` rectangle. -/
def trxregPacket (w h : Nat) : ADPacket := { lo := w, hi := h, sel := 0x52 }

/-- A TRXDIR record starting a device-to-host transfer. -/
def trxdirPacket : ADPacket := { lo := 1, hi := 0, sel := 0x53 }

/-- A unit state holding pixel format 2 and a 64 by 32 rectangle. -/
def downloadState : GifState :=
  feed idleState [bitbltPacket 2, trxregPacket 64 32]

/-- The `(data, mask)` pairs of a sequence of records, `(data[0], data[1])`
of each. -/
def labelPairs (ps : List (ADPacket × List Bool)) : List (Nat × Nat) :=
  ps.map (fun q => (q.1.data0, q.1.data1))

/-- A LABEL record whose data word has bits outside its mask word. -/
def overwideLabelPacket : ADPacket := { lo := 0xFF, hi := 0x0F, sel := 0x62 }

/-- A schedule with a busy concurrent writer: before every attempt another
thread stores a label cell with mask `2` whose data alternates between `2`
and `0`; no attempt fails spuriously. -/
def toggleWriter : Nat → Interference :=
  fun k =>
    { write := some (if k % 2 = 0 then 0x0000000200000002 else 0x0000000200000000)
      spurious := false }

/-- A schedule disturbed by the busy writer during the first two attempts
only. -/
def brieflyDisturbed : Nat → Interference :=
  fun k => if k < 2 then toggleWriter k else quiet [] k

/-! ## Save states: gifPathFreeze and gifFreeze

The stream of a save state is a list of words, one per scalar member and one
per arena byte; how members are laid out in bytes is not modelled.  The
helpers of `SaveStateBase` and the declaration of `Gif_Path` are not part of
the sources at hand. -/

/-- Modelled from the spec: the object `SaveStateBase`, missing from the
sources.  `saving` is `IsSaving()`; `data` is the stream written so far when
saving and the part of the stream not read yet when loading; `okay` is
`IsOkay()`. -/
structure SaveState where
  saving : Bool
  data : List Nat
  okay : Bool
  deriving DecidableEq, Repr

/-- Modelled from the spec: `SaveStateBase::FreezeMem` and `Freeze`, missing
from the sources, on a memory region holding the words `vals`.  Saving
appends the words to the stream and leaves the region as it is; loading
reads as many words from the stream into the region, in the same order and
length; a stream that is too short is flagged and the missing words read as
zero.  The second component is the content of the region afterwards. -/
def FreezeMem (st : SaveState) (vals : List Nat) : SaveState × List Nat :=
  if st.saving then
    ({ st with data := st.data ++ vals }, vals)
  else if vals.length ≤ st.data.length then
    ({ st with data := st.data.drop vals.length }, st.data.take vals.length)
  else
    ({ st with data := [], okay := false },
      st.data ++ List.replicate (vals.length - st.data.length) 0)

/-- The tag `"Gif Unit"` as one word of the stream. -/
def gifUnitTag : Nat := 0x47696620556E6974

/-- Modelled from the spec: `SaveStateBase::FreezeTag`, missing from the
sources.  Saving writes the tag; loading reads one word and reports
whether it is the tag. -/
def FreezeTag (st : SaveState) (tag : Nat) : SaveState × Bool :=
  if st.saving then
    ({ st with data := st.data ++ [tag] }, true)
  else
    ((FreezeMem st [tag]).1, decide ((FreezeMem st [tag]).2 = [tag]))

/-- A `bool` member as a word of the stream. -/
def boolWord (b : Bool) : Nat := if b then 1 else 0

/-- A word of the stream read as a `bool` member. -/
def wordBool (n : Nat) : Bool := decide (n ≠ 0)

/-- Modelled from the spec: the members of `Gif_Path` that `gifPathFreeze`
uses; the declaration is missing from the sources.  `buffer` is the pointer
to the arena and `arena` the bytes it points to; `rest` stands for the other
members in front of `mtvu`; `fakePackets` and `pendingGSPackets` (the value
of `GetPendingGSPackets()`) belong to `mtvu`; `isMTVU` is the value of
`isMTVU()`. -/
structure Gif_Path where
  readAmount : Nat
  buffer : Nat
  curSize : Nat
  gsPackReadAmount : Nat
  rest : Nat
  fakePackets : Nat
  pendingGSPackets : Nat
  isMTVU : Bool
  arena : Nat → Nat

/-- Modelled from the spec: `pxAssertMsg`, missing from the sources, is a
hard failure at a serialization boundary; the three assertions at the head
of `gifPathFreeze` pass. -/
def pathAssertsPass (gifPath : Gif_Path) : Bool :=
  gifPath.readAmount == 0 && gifPath.gsPackReadAmount == 0 && gifPath.pendingGSPackets == 0

/-- The function `bool SaveStateBase::gifPathFreeze(u32 path)` on the path it
selects: the save state and the path afterwards, `none` when an assertion
fails.  `RealignPacket` is the method of `Gif_Path`, missing from the
sources.  The returned flag `IsOkay()` is the `okay` of the save state. -/
def gifPathFreeze (RealignPacket : Gif_Path → Gif_Path) (st : SaveState)
    (gifPath : Gif_Path) : Option (SaveState × Gif_Path) :=
  if !pathAssertsPass gifPath then none
  else
    let gp0 := if !gifPath.isMTVU && st.saving then RealignPacket gifPath else gifPath
    let bufferPtr := gp0.buffer
    let f1 := FreezeMem st [gp0.fakePackets]
    let gp1 : Gif_Path := { gp0 with fakePackets := f1.2.getD 0 0 }
    let f2 := FreezeMem f1.1
      [gp1.readAmount, gp1.buffer, gp1.curSize, gp1.gsPackReadAmount, gp1.rest]
    let gp2 : Gif_Path :=
      { gp1 with
        readAmount := f2.2.getD 0 0
        buffer := f2.2.getD 1 0
        curSize := f2.2.getD 2 0
        gsPackReadAmount := f2.2.getD 3 0
        rest := f2.2.getD 4 0 }
    let f3 := FreezeMem f2.1 ((List.range gp2.curSize).map gp2.arena)
    let gp3 : Gif_Path :=
      { gp2 with arena := fun i => if i < gp2.curSize then f3.2.getD i 0 else gp2.arena i }
    let gp4 : Gif_Path := { gp3 with buffer := bufferPtr }
    let gp5 : Gif_Path :=
      if !st.saving then { gp4 with readAmount := 0, gsPackReadAmount := 0 } else gp4
    some (f3.1, gp5)

/-- Modelled from the spec: `Gif_Path::RealignPacket`, missing from the
sources: the bytes beyond `readAmount` are moved to the start of the arena
and `readAmount` is reset to 0. -/
def realignFromSpec (gp : Gif_Path) : Gif_Path :=
  { gp with
    arena := fun i => gp.arena (i + gp.readAmount)
    curSize := gp.curSize - gp.readAmount
    readAmount := 0 }

/-- What `gifFreeze` reads and writes: the members `stat`, `gsSIGNAL`,
`gsFINISH`, `lastTranType` and `gifPath[3]` of `gifUnit` (`gsSIGNAL` and
`gsFINISH` are those of `regs`, next to the GS registers the handlers use),
the setting `THREAD_VU1`, and the number of warnings sent to `DevCon`. -/
structure Gif_Unit where
  regs : GifState
  stat : Nat
  lastTranType : Nat
  gifPath1 : Gif_Path
  gifPath2 : Gif_Path
  gifPath3 : Gif_Path
  THREAD_VU1 : Bool
  warnings : Nat

/-- The function `bool SaveStateBase::gifFreeze()`: the save state, the
unit and the returned flag, `none` when an assertion of `gifPathFreeze`
fails.  Waiting for the worker thread and the GS thread has no counterpart
here. -/
def gifFreeze (RealignPacket : Gif_Path → Gif_Path) (st : SaveState) (u : Gif_Unit) :
    Option (SaveState × Gif_Unit × Bool) :=
  let mtvuMode := u.THREAD_VU1
  let t0 := FreezeTag st gifUnitTag
  if !t0.2 then some (t0.1, u, false)
  else
    let f1 := FreezeMem t0.1 [boolWord mtvuMode]
    let mtvuMode1 := wordBool (f1.2.getD 0 0)
    let f2 := FreezeMem f1.1 [u.stat]
    let f3 := FreezeMem f2.1
      [u.regs.gsSIGNAL.data0, u.regs.gsSIGNAL.data1, boolWord u.regs.gsSIGNAL.queued]
    let f4 := FreezeMem f3.1
      [boolWord u.regs.gsFINISH.gsFINISHFired, boolWord u.regs.gsFINISH.gsFINISHPending]
    let f5 := FreezeMem f4.1 [u.lastTranType]
    let regs1 : GifState :=
      { u.regs with
        gsSIGNAL :=
          { data0 := f3.2.getD 0 0, data1 := f3.2.getD 1 0, queued := wordBool (f3.2.getD 2 0) }
        gsFINISH :=
          { gsFINISHFired := wordBool (f4.2.getD 0 0)
            gsFINISHPending := wordBool (f4.2.getD 1 0) } }
    let u1 : Gif_Unit :=
      { u with regs := regs1, stat := f2.2.getD 0 0, lastTranType := f5.2.getD 0 0 }
    match gifPathFreeze RealignPacket f5.1 u1.gifPath1 with
    | none => none
    | some r1 =>
      match gifPathFreeze RealignPacket r1.1 u1.gifPath2 with
      | none => none
      | some r2 =>
        match gifPathFreeze RealignPacket r2.1 u1.gifPath3 with
        | none => none
        | some r3 =>
          let u2 : Gif_Unit :=
            { u1 with gifPath1 := r1.2, gifPath2 := r2.2, gifPath3 := r3.2 }
          let u3 : Gif_Unit :=
            if !st.saving && (mtvuMode1 != u.THREAD_VU1) then
              { u2 with warnings := u2.warnings + 1 }
            else u2
          some (r3.1, u3, true)

/-- Saving a unit into an empty stream and loading the stream, followed by
`more`, into a live unit: the loaded unit. -/
def thawOfFreeze (RealignPacket : Gif_Path → Gif_Path) (S L : Gif_Unit) (more : List Nat) :
    Option Gif_Unit :=
  match gifFreeze RealignPacket { saving := true, data := [], okay := true } S with
  | none => none
  | some r =>
    match gifFreeze RealignPacket { saving := false, data := r.1.data ++ more, okay := true } L with
    | none => none
    | some r1 => some r1.2.1

/-- The words `gifPathFreeze` writes for a path: `mtvu.fakePackets`, the
members in front of `mtvu`, then `curSize` arena bytes. -/
def pathChunk (gp : Gif_Path) : List Nat :=
  gp.fakePackets :: gp.readAmount :: gp.buffer :: gp.curSize :: gp.gsPackReadAmount
    :: gp.rest :: (List.range gp.curSize).map gp.arena

/-- The words `gifFreeze` writes in front of the paths: the tag, the worker
mode, `stat`, `gsSIGNAL`, `gsFINISH` and `lastTranType`. -/
def unitHeader (u : Gif_Unit) : List Nat :=
  [gifUnitTag, boolWord u.THREAD_VU1, u.stat, u.regs.gsSIGNAL.data0, u.regs.gsSIGNAL.data1,
    boolWord u.regs.gsSIGNAL.queued, boolWord u.regs.gsFINISH.gsFINISHFired,
    boolWord u.regs.gsFINISH.gsFINISHPending, u.lastTranType]

/-- The path as `gifPathFreeze` saves it: realigned unless it is owned by
the worker thread. -/
def pathAsSaved (RealignPacket : Gif_Path → Gif_Path) (gp : Gif_Path) : Gif_Path :=
  if gp.isMTVU then gp else RealignPacket gp

/-- The path `gifPathFreeze` leaves when it loads the chunk of the saved
path `src` into the live path `live`. -/
def pathAsLoaded (src live : Gif_Path) : Gif_Path :=
  { readAmount := 0
    buffer := live.buffer
    curSize := src.curSize
    gsPackReadAmount := 0
    rest := src.rest
    fakePackets := src.fakePackets
    pendingGSPackets := live.pendingGSPackets
    isMTVU := live.isMTVU
    arena := fun i => if i < src.curSize then src.arena i else live.arena i }

/-- A path with four buffered bytes and nothing in flight. -/
def samplePath : Gif_Path :=
  { readAmount := 0, buffer := 0x1000, curSize := 4, gsPackReadAmount := 0, rest := 7,
    fakePackets := 0, pendingGSPackets := 0, isMTVU := false,
    arena := fun i => i + 10 }

/-- A live path with other content, at another address. -/
def livePath : Gif_Path :=
  { readAmount := 0, buffer := 0x2000, curSize := 2, gsPackReadAmount := 0, rest := 9,
    fakePackets := 3, pendingGSPackets := 0, isMTVU := false,
    arena := fun _ => 0xEE }

/-- A unit to be saved. -/
def savedUnit : Gif_Unit :=
  { regs := stalledState, stat := 0x400, lastTranType := 2,
    gifPath1 := samplePath, gifPath2 := samplePath, gifPath3 := samplePath,
    THREAD_VU1 := false, warnings := 0 }

/-- A live unit whose GS registers and pending events differ from those of
`savedUnit`. -/
def liveUnit : Gif_Unit :=
  { regs := { idleState with GSSIGLBLID := { SIGID := 1, LBLID := 2 } },
    stat := 0, lastTranType := 0,
    gifPath1 := livePath, gifPath2 := livePath, gifPath3 := livePath,
    THREAD_VU1 := false, warnings := 0 }

/-! ## Gif_HandlerAD_Debug -/

/-- Messages `Gif_HandlerAD_Debug` passes to `Console.Error` and
`DevCon.Warning`. -/
inductive DebugLog where
  | BITBLTBUF
  | TRXREG
  | TRXDIR
  | SIGNAL
  | FINISH
  | LABEL
  | unknownRegister (reg : Nat)
  deriving DecidableEq, Repr

/-- The function `bool Gif_HandlerAD_Debug(u8* pMem)`: the returned flag
("true if pcsx2 needed to process the packet") and the message logged, if
any. -/
def Gif_HandlerAD_Debug (p : ADPacket) : Bool × Option DebugLog :=
  let reg := u8 (p.reg &&& 0x7f)
  if reg = 0x50 then (true, some DebugLog.BITBLTBUF)
  else if reg = 0x52 then (true, some DebugLog.TRXREG)
  else if reg = 0x53 then (true, some DebugLog.TRXDIR)
  else if reg = 0x60 then (true, some DebugLog.SIGNAL)
  else if reg = 0x61 then (true, some DebugLog.FINISH)
  else if reg = 0x62 then (true, some DebugLog.LABEL)
  else if 0x63 ≤ reg ∧ reg ≠ 0x7f then (false, some (DebugLog.unknownRegister reg))
  else (false, none)

/-- A TRXPOS record. -/
def trxposPacket : ADPacket := { lo := 0x00100020, hi := 0x00000300, sel := 0x51 }

/-- The record `signalPacket` with bit 7 of the selector byte set. -/
def highSignalPacket : ADPacket := { lo := 0x12345678, hi := 0x0000FFFF, sel := 0xE0 }

end Gif

/-! # Disc reader utilities (pcsx2/CDVD/CDVDdiscReader.cpp) -/

namespace CDVD

/-- The function `static u8 dec_to_bcd(u8 dec)`; the argument and the result
are truncated to a byte. -/
def dec_to_bcd (dec : Nat) : Nat :=
  (((dec % 256) / 10) <<< 4 ||| ((dec % 256) % 10)) % 256

/-- The function `lsn_to_msf` on a 32-bit `lsn`: the bytes written to
`*minute`, `*second` and `*frame`. -/
def lsn_to_msf (lsn : Nat) : Nat × Nat × Nat :=
  let lsn0 := lsn % 2 ^ 32
  let frame := dec_to_bcd (lsn0 % 75)
  let lsn1 := lsn0 / 75
  let second := dec_to_bcd (lsn1 % 60)
  let lsn2 := lsn1 / 60
  let minute := dec_to_bcd (lsn2 % 100)
  (minute, second, frame)

/-- An entry of the table `tracks`: where the track starts and its type. -/
structure cdvdTrack where
  start_lba : Nat
  type : Nat
  deriving DecidableEq, Repr

/-- The members of `cdvdSubQ` that `DISCreadSubQ` fills; the declaration is
in a header, and the bit-field widths of `ctrl` and `adr` are not
modelled. -/
structure cdvdSubQ where
  ctrl : Nat
  adr : Nat
  trackNum : Nat
  trackIndex : Nat
  trackM : Nat
  trackS : Nat
  trackF : Nat
  pad : Nat
  discM : Nat
  discS : Nat
  discF : Nat
  deriving DecidableEq, Repr

/-- The loop `while (i < etrack && lsn >= tracks[i + 1].start_lba) ++i;` of
`DISCreadSubQ`, from the value `i`: the value of `i` when the loop is left.
Each turn increments `i` below `etrack`, so `etrack - i` turns are enough;
the first argument bounds the number of turns. -/
def trackLoop (etrack : Nat) (tracks : Nat → cdvdTrack) (lsn : Nat) : Nat → Nat → Nat
  | 0, i => i
  | turns + 1, i =>
    if i < etrack ∧ (tracks (i + 1)).start_lba % 2 ^ 32 ≤ lsn then
      trackLoop etrack tracks lsn turns (i + 1)
    else i

/-- The function `static s32 DISCreadSubQ(u32 lsn, cdvdSubQ* subq)`: the
record written to `*subq` when 0 is returned, `none` when -1 is returned and
nothing is written.  `sectorCount` is `src->GetSectorCount()`; `strack`,
`etrack` and `tracks` are the globals of the table of contents, the first
two bytes; `readTrackSubQ` is what `src->ReadTrackSubQ(subq)` delivers, the
values of `adr`, `trackNum` and `trackIndex` from the device, or nothing
when it returns false. -/
def DISCreadSubQ (sectorCount strack etrack : Nat) (tracks : Nat → cdvdTrack)
    (readTrackSubQ : Option (Nat × Nat × Nat)) (lsn : Nat) : Option cdvdSubQ :=
  let lsn0 := lsn % 2 ^ 32
  if lsn0 ≥ sectorCount % 2 ^ 32 then none
  else
    let disc := lsn_to_msf ((lsn0 + 150) % 2 ^ 32)
    let i := trackLoop (etrack % 256) tracks lsn0 (etrack % 256 - strack % 256) (strack % 256)
    let lsn1 := (lsn0 + 2 ^ 32 - (tracks i).start_lba % 2 ^ 32) % 2 ^ 32
    let track := lsn_to_msf lsn1
    let subq : cdvdSubQ :=
      { ctrl := (tracks i).type, adr := 0, trackNum := 0, trackIndex := 0,
        trackM := track.1, trackS := track.2.1, trackF := track.2.2, pad := 0,
        discM := disc.1, discS := disc.2.1, discF := disc.2.2 }
    match readTrackSubQ with
    | some r => some { subq with adr := r.1, trackNum := r.2.1, trackIndex := r.2.2 }
    | none => some { subq with adr := 1, trackNum := i, trackIndex := 1 }

/-- A table of contents with one track that starts at sector 0. -/
def oneTrack : Nat → cdvdTrack := fun _ => { start_lba := 0, type := 0x41 }

/-- A table of contents with three tracks, starting at sectors 0, 1000 and
30000. -/
def threeTracks : Nat → cdvdTrack := fun i =>
  if i ≤ 1 then { start_lba := 0, type := 0x41 }
  else if i = 2 then { start_lba := 1000, type := 0x01 }
  else { start_lba := 30000, type := 0x01 }

/-- A byte is valid packed BCD: each nibble is at most 9. -/
def validBCD (b : Nat) : Prop := b >>> 4 ≤ 9 ∧ b &&& 0xF ≤ 9

instance (b : Nat) : Decidable (validBCD b) := by
  unfold validBCD
  infer_instance

/-- The value of a packed BCD byte: ten times the high nibble plus the low
nibble. -/
def bcdValue (b : Nat) : Nat := (b >>> 4) * 10 + (b &&& 0xF)

/-- The sector number a triple of packed BCD bytes (minute, second, frame)
stands for: 75 frames to the second, 60 seconds to the minute. -/
def msfValue (msf : Nat × Nat × Nat) : Nat :=
  75 * (60 * bcdValue msf.1 + bcdValue msf.2.1) + bcdValue msf.2.2

end CDVD

namespace Gif

/-! ## Dispatch lemmas -/

/-- A record whose selector is SIGNAL reaches the SIGNAL branch. -/
theorem Gif_HandlerAD_of_signal (s : GifState) (p : ADPacket)
    (hreg : p.reg = GIF_A_D_REG_SIGNAL) : Gif_HandlerAD s p = handleSIGNAL s p := by
  simp [Gif_HandlerAD, hreg, GIF_A_D_REG_BITBLTBUF, GIF_A_D_REG_TRXREG, GIF_A_D_REG_TRXDIR,
    GIF_A_D_REG_SIGNAL]

/-- A record whose selector is FINISH reaches the FINISH branch. -/
theorem Gif_HandlerAD_of_finish (s : GifState) (p : ADPacket)
    (hreg : p.reg = GIF_A_D_REG_FINISH) :
    Gif_HandlerAD s p
      = ({ s with gsFINISH := { gsFINISHFired := false, gsFINISHPending := true } }, false) := by
  simp [Gif_HandlerAD, hreg, GIF_A_D_REG_BITBLTBUF, GIF_A_D_REG_TRXREG, GIF_A_D_REG_TRXDIR,
    GIF_A_D_REG_SIGNAL, GIF_A_D_REG_FINISH]

/-- A record whose selector is LABEL reaches the LABEL branch. -/
theorem Gif_HandlerAD_of_label (s : GifState) (p : ADPacket)
    (hreg : p.reg = GIF_A_D_REG_LABEL) :
    Gif_HandlerAD s p
      = ({ s with GSSIGLBLID :=
            { s.GSSIGLBLID with
              LBLID := maskedWrite s.GSSIGLBLID.LBLID p.data0 p.data1 } }, false) := by
  simp [Gif_HandlerAD, hreg, GIF_A_D_REG_BITBLTBUF, GIF_A_D_REG_TRXREG, GIF_A_D_REG_TRXDIR,
    GIF_A_D_REG_SIGNAL, GIF_A_D_REG_FINISH, GIF_A_D_REG_LABEL]

/-- No call of the handler touches a SIGNAL that is already buffered. -/
theorem Gif_HandlerAD_keeps_queued (s : GifState) (p : ADPacket)
    (hq : s.gsSIGNAL.queued = true) : (Gif_HandlerAD s p).1.gsSIGNAL = s.gsSIGNAL := by
  unfold Gif_HandlerAD handleSIGNAL handleTRXDIR
  simp only [hq, Bool.not_true, Bool.false_eq_true, if_false]
  split_ifs <;> simp [gsIrq]

/-- One poll either leaves the fired flag and the interrupt count alone, or
turns the flag from clear to set and raises one interrupt. -/
theorem Gif_FinishIRQ_step (s : GifState) (e : Bool × Bool) :
    ((Gif_FinishIRQ (setFinishEnv s e)).gsFINISH.gsFINISHFired = s.gsFINISH.gsFINISHFired
        ∧ (Gif_FinishIRQ (setFinishEnv s e)).irqs = s.irqs)
      ∨ (s.gsFINISH.gsFINISHFired = false
        ∧ (Gif_FinishIRQ (setFinishEnv s e)).gsFINISH.gsFINISHFired = true
        ∧ (Gif_FinishIRQ (setFinishEnv s e)).irqs = s.irqs + 1) := by
  unfold Gif_FinishIRQ setFinishEnv
  cases hf : s.gsFINISH.gsFINISHFired <;> cases hp : s.gsFINISH.gsFINISHPending <;>
    cases e.1 <;> cases e.2 <;> simp [gsIrq, hf]

/-- Over a run of polls, a fired flag that is set stays set and no interrupt
is raised; from a clear flag at most one interrupt is raised, exactly when
the flag ends up set. -/
theorem pollRun_irqs (env : List (Bool × Bool)) (s : GifState) :
    (s.gsFINISH.gsFINISHFired = true →
        (pollRun s env).gsFINISH.gsFINISHFired = true ∧ (pollRun s env).irqs = s.irqs)
      ∧ (s.gsFINISH.gsFINISHFired = false →
        (pollRun s env).irqs
          = s.irqs + (if (pollRun s env).gsFINISH.gsFINISHFired then 1 else 0)) := by
  induction env generalizing s with
  | nil => constructor <;> intro h <;> simp [pollRun, h]
  | cons e env ih =>
    have hstep := Gif_FinishIRQ_step s e
    have ih1 := ih (Gif_FinishIRQ (setFinishEnv s e))
    have hrun : pollRun s (e :: env) = pollRun (Gif_FinishIRQ (setFinishEnv s e)) env := rfl
    rw [hrun]
    constructor
    · intro h
      rcases hstep with ⟨hf, hi⟩ | ⟨hf, _, _⟩
      · have := ih1.1 (by rw [hf, h])
        exact ⟨this.1, by rw [this.2, hi]⟩
      · rw [h] at hf; cases hf
    · intro h
      rcases hstep with ⟨hf, hi⟩ | ⟨_, hf, hi⟩
      · have := ih1.2 (by rw [hf, h])
        rw [this, hi]
      · have := ih1.1 hf
        rw [this.2, hi, this.1]; simp

/-! ## Bit-level lemmas for the label merge -/

/-- Bits of a value truncated to a `u32`. -/
theorem testBit_u32 (x i : Nat) : (u32 x).testBit i = (decide (i < 32) && x.testBit i) := by
  unfold u32
  exact Nat.testBit_mod_two_pow x 32 i

/-- Bits of the 32-bit complement. -/
theorem testBit_not32 (x i : Nat) :
    (not32 x).testBit i = (decide (i < 32) && !x.testBit i) := by
  have hones : (0xFFFFFFFF : Nat) = 2 ^ 32 - 1 := by norm_num
  unfold not32
  rw [Nat.testBit_xor, testBit_u32, hones, Nat.testBit_two_pow_sub_one]
  cases x.testBit i <;> cases decide (i < 32) <;> rfl

/-- Bits of the merged data word. -/
theorem testBit_merge_fst (e p : Nat × Nat) (i : Nat) :
    (merge e p).1.testBit i
      = (decide (i < 32)
          && ((e.1.testBit i && !p.2.testBit i) || (p.1.testBit i && p.2.testBit i))) := by
  simp only [merge, maskedWrite, Nat.testBit_or, Nat.testBit_and, testBit_u32, testBit_not32]
  cases decide (i < 32) <;> cases e.1.testBit i <;> cases p.1.testBit i <;>
    cases p.2.testBit i <;> rfl

/-- Bits of the merged mask word. -/
theorem testBit_merge_snd (e p : Nat × Nat) (i : Nat) :
    (merge e p).2.testBit i = (decide (i < 32) && (e.2.testBit i || p.2.testBit i)) := by
  simp only [merge, Nat.testBit_or, testBit_u32]
  cases decide (i < 32) <;> cases e.2.testBit i <;> cases p.2.testBit i <;> rfl

/-- A value all of whose bits from 32 on are clear is determined by its low
32 bits. -/
theorem eq_of_low_bits (x y : Nat)
    (hx : ∀ i, 32 ≤ i → x.testBit i = false) (hy : ∀ i, 32 ≤ i → y.testBit i = false)
    (h : ∀ i, i < 32 → x.testBit i = y.testBit i) : x = y := by
  apply Nat.eq_of_testBit_eq
  intro i
  by_cases hi : i < 32
  · exact h i hi
  · rw [hx i (by omega), hy i (by omega)]

/-- After at least one merge both words of the cell fit in 32 bits. -/
theorem foldl_merge_high_bits (xs : List (Nat × Nat)) (e p : Nat × Nat) (i : Nat)
    (hi : 32 ≤ i) :
    ((p :: xs).foldl merge e).1.testBit i = false
      ∧ ((p :: xs).foldl merge e).2.testBit i = false := by
  have hdec : decide (i < 32) = false := by simp; omega
  induction xs generalizing e p with
  | nil =>
    simp only [List.foldl_cons, List.foldl_nil]
    rw [testBit_merge_fst, testBit_merge_snd, hdec]
    exact ⟨rfl, rfl⟩
  | cons q xs ih =>
    have hstep : (p :: q :: xs).foldl merge e = (q :: xs).foldl merge (merge e p) := rfl
    rw [hstep]
    exact ih (merge e p) q

/-- The low bits of a fold of merges over pairs whose masks are pairwise
disjoint: a data bit is taken from the pair that masks it, if there is one,
and from the start value otherwise; a mask bit is set when the start value
or some pair has it. -/
theorem foldl_merge_low_bits (xs : List (Nat × Nat)) (e : Nat × Nat) (i : Nat)
    (hi : i < 32)
    (hdisj : ∀ p ∈ xs, ∀ q ∈ xs, p ≠ q → p.2 &&& q.2 = 0) :
    (xs.foldl merge e).1.testBit i
        = (xs.any (fun p => p.1.testBit i && p.2.testBit i)
            || (e.1.testBit i && !xs.any (fun p => p.2.testBit i)))
      ∧ (xs.foldl merge e).2.testBit i
        = (e.2.testBit i || xs.any (fun p => p.2.testBit i)) := by
  have hdec : decide (i < 32) = true := by simp [hi]
  induction xs generalizing e with
  | nil => simp
  | cons p xs ih =>
    have hsub : ∀ a ∈ xs, ∀ b ∈ xs, a ≠ b → a.2 &&& b.2 = 0 := fun a ha b hb hab =>
      hdisj a (List.mem_cons_of_mem _ ha) b (List.mem_cons_of_mem _ hb) hab
    have ih1 := ih (merge e p) hsub
    have key : p.1.testBit i = true → p.2.testBit i = true →
        xs.any (fun q => q.2.testBit i) = true →
        xs.any (fun q => q.1.testBit i && q.2.testBit i) = true := by
      intro hd hm hany
      rw [List.any_eq_true] at hany ⊢
      obtain ⟨q, hq, hqm⟩ := hany
      have hpq : p = q := by
        by_contra hne
        have h0 := hdisj p (List.mem_cons_self _ _) q (List.mem_cons_of_mem _ hq) hne
        have hbit : (p.2 &&& q.2).testBit i = true := by
          rw [Nat.testBit_and, hm, hqm]; rfl
        rw [h0, Nat.zero_testBit] at hbit
        cases hbit
      refine ⟨q, hq, ?_⟩
      rw [← hpq, hd, hm]; rfl
    simp only [List.foldl_cons, List.any_cons]
    rw [ih1.1, ih1.2, testBit_merge_fst, testBit_merge_snd, hdec]
    revert key
    cases e.1.testBit i <;> cases e.2.testBit i <;> cases p.1.testBit i <;>
      cases p.2.testBit i <;>
      cases xs.any (fun q => q.2.testBit i) <;>
      cases xs.any (fun q => q.1.testBit i && q.2.testBit i) <;> simp

/-- Folding merges over two sequences with the same members, distinct
members having disjoint masks, gives the same cell. -/
theorem foldl_merge_congr (e : Nat × Nat) (xs ys : List (Nat × Nat))
    (hset : ∀ p, p ∈ xs ↔ p ∈ ys)
    (hdisj : ∀ p ∈ xs, ∀ q ∈ xs, p ≠ q → p.2 &&& q.2 = 0) :
    xs.foldl merge e = ys.foldl merge e := by
  have hdisj2 : ∀ p ∈ ys, ∀ q ∈ ys, p ≠ q → p.2 &&& q.2 = 0 := fun p hp q hq hpq =>
    hdisj p ((hset p).2 hp) q ((hset q).2 hq) hpq
  have hany : ∀ f : Nat × Nat → Bool, xs.any f = ys.any f := by
    intro f
    rw [Bool.eq_iff_iff, List.any_eq_true, List.any_eq_true]
    constructor
    · rintro ⟨a, ha, hf⟩; exact ⟨a, (hset a).1 ha, hf⟩
    · rintro ⟨a, ha, hf⟩; exact ⟨a, (hset a).2 ha, hf⟩
  cases xs with
  | nil =>
    cases ys with
    | nil => rfl
    | cons q ys => exact absurd ((hset q).2 (List.mem_cons_self _ _)) (List.not_mem_nil q)
  | cons p xs =>
    cases ys with
    | nil => exact absurd ((hset p).1 (List.mem_cons_self _ _)) (List.not_mem_nil p)
    | cons q ys =>
      apply Prod.ext
      · apply eq_of_low_bits
        · intro i hi; exact (foldl_merge_high_bits xs e p i hi).1
        · intro i hi; exact (foldl_merge_high_bits ys e q i hi).1
        · intro i hi
          rw [(foldl_merge_low_bits (p :: xs) e i hi hdisj).1,
            (foldl_merge_low_bits (q :: ys) e i hi hdisj2).1, hany, hany]
      · apply eq_of_low_bits
        · intro i hi; exact (foldl_merge_high_bits xs e p i hi).2
        · intro i hi; exact (foldl_merge_high_bits ys e q i hi).2
        · intro i hi
          rw [(foldl_merge_low_bits (p :: xs) e i hi hdisj).2,
            (foldl_merge_low_bits (q :: ys) e i hi hdisj2).2, hany]

/-! ## Theorems: the primary-thread handler -/

/-- C1: when `CSRreg.SIGNAL` is clear, a SIGNAL record merges its payload
into SIGID as `(SIGID & ~data1) | (data0 & data1)`, sets `CSRreg.SIGNAL`,
raises the GS interrupt exactly when `GSIMR.SIGMSK` is clear, leaves
`gsSIGNAL` as it was and returns false. -/
theorem signal_unstalled (s : GifState) (p : ADPacket)
    (hcsr : s.CSRreg.SIGNAL = false) (hreg : p.reg = GIF_A_D_REG_SIGNAL) :
    (Gif_HandlerAD s p).1.GSSIGLBLID.SIGID
        = (s.GSSIGLBLID.SIGID &&& not32 p.data1) ||| (p.data0 &&& p.data1)
      ∧ (Gif_HandlerAD s p).1.CSRreg.SIGNAL = true
      ∧ (Gif_HandlerAD s p).1.irqs = (if s.GSIMR.SIGMSK then s.irqs else s.irqs + 1)
      ∧ (Gif_HandlerAD s p).1.gsSIGNAL = s.gsSIGNAL
      ∧ (Gif_HandlerAD s p).2 = false := by
  rw [Gif_HandlerAD_of_signal s p hreg]
  cases hm : s.GSIMR.SIGMSK <;> simp [handleSIGNAL, hcsr, hm, gsIrq, maskedWrite]

/-- Witness of C1 on an idle unit and a SIGNAL record. -/
theorem signal_unstalled_witness :
    idleState.CSRreg.SIGNAL = false ∧ signalPacket.reg = GIF_A_D_REG_SIGNAL
      ∧ (Gif_HandlerAD idleState signalPacket).1.GSSIGLBLID.SIGID
          = (idleState.GSSIGLBLID.SIGID &&& not32 signalPacket.data1)
              ||| (signalPacket.data0 &&& signalPacket.data1)
      ∧ (Gif_HandlerAD idleState signalPacket).1.CSRreg.SIGNAL = true
      ∧ (Gif_HandlerAD idleState signalPacket).1.irqs
          = (if idleState.GSIMR.SIGMSK then idleState.irqs else idleState.irqs + 1)
      ∧ (Gif_HandlerAD idleState signalPacket).1.gsSIGNAL = idleState.gsSIGNAL
      ∧ (Gif_HandlerAD idleState signalPacket).2 = false :=
  ⟨rfl, by decide, signal_unstalled idleState signalPacket rfl (by decide)⟩

/-- C2: when `CSRreg.SIGNAL` is set and no SIGNAL is queued, a SIGNAL record
is buffered: its two words go to `gsSIGNAL.data`, `gsSIGNAL.queued` is set,
the call returns true, no interrupt is raised and SIGID and `CSRreg.SIGNAL`
keep their values. -/
theorem signal_stalls (s : GifState) (p : ADPacket)
    (hcsr : s.CSRreg.SIGNAL = true) (hq : s.gsSIGNAL.queued = false)
    (hreg : p.reg = GIF_A_D_REG_SIGNAL) :
    (Gif_HandlerAD s p).1.gsSIGNAL.data0 = p.data0
      ∧ (Gif_HandlerAD s p).1.gsSIGNAL.data1 = p.data1
      ∧ (Gif_HandlerAD s p).1.gsSIGNAL.queued = true
      ∧ (Gif_HandlerAD s p).2 = true
      ∧ (Gif_HandlerAD s p).1.irqs = s.irqs
      ∧ (Gif_HandlerAD s p).1.GSSIGLBLID.SIGID = s.GSSIGLBLID.SIGID
      ∧ (Gif_HandlerAD s p).1.CSRreg.SIGNAL = s.CSRreg.SIGNAL := by
  rw [Gif_HandlerAD_of_signal s p hreg]
  simp [handleSIGNAL, hcsr, hq]

/-- Witness of C2 on a unit with an unacknowledged SIGNAL. -/
theorem signal_stalls_witness :
    signalledState.CSRreg.SIGNAL = true ∧ signalledState.gsSIGNAL.queued = false
      ∧ signalPacket.reg = GIF_A_D_REG_SIGNAL
      ∧ (Gif_HandlerAD signalledState signalPacket).1.gsSIGNAL.data0 = signalPacket.data0
      ∧ (Gif_HandlerAD signalledState signalPacket).1.gsSIGNAL.data1 = signalPacket.data1
      ∧ (Gif_HandlerAD signalledState signalPacket).1.gsSIGNAL.queued = true
      ∧ (Gif_HandlerAD signalledState signalPacket).2 = true
      ∧ (Gif_HandlerAD signalledState signalPacket).1.irqs = signalledState.irqs
      ∧ (Gif_HandlerAD signalledState signalPacket).1.GSSIGLBLID.SIGID
          = signalledState.GSSIGLBLID.SIGID
      ∧ (Gif_HandlerAD signalledState signalPacket).1.CSRreg.SIGNAL
          = signalledState.CSRreg.SIGNAL :=
  ⟨rfl, rfl, by decide, signal_stalls signalledState signalPacket rfl rfl (by decide)⟩

/-- C3: once a SIGNAL is buffered (`gsSIGNAL.queued` set), feeding any
finite sequence of records, whatever their selectors and payloads, leaves
`gsSIGNAL.queued` set and both buffered words unchanged. -/
theorem queued_signal_kept (s : GifState) (ps : List ADPacket)
    (hq : s.gsSIGNAL.queued = true) :
    (feed s ps).gsSIGNAL.queued = true
      ∧ (feed s ps).gsSIGNAL.data0 = s.gsSIGNAL.data0
      ∧ (feed s ps).gsSIGNAL.data1 = s.gsSIGNAL.data1 := by
  have key : ∀ (ps : List ADPacket) (t : GifState), t.gsSIGNAL.queued = true →
      (feed t ps).gsSIGNAL = t.gsSIGNAL := by
    intro ps
    induction ps with
    | nil => intro t _; rfl
    | cons p ps ih =>
      intro t ht
      have h1 := Gif_HandlerAD_keeps_queued t p ht
      have h2 := ih (Gif_HandlerAD t p).1 (by rw [h1]; exact ht)
      have hfeed : feed t (p :: ps) = feed (Gif_HandlerAD t p).1 ps := rfl
      rw [hfeed, h2, h1]
  rw [key ps s hq]
  exact ⟨hq, rfl, rfl⟩

/-- Witness of C3: a stalled unit fed a SIGNAL, a FINISH, a LABEL and a
second SIGNAL record. -/
theorem queued_signal_kept_witness :
    stalledState.gsSIGNAL.queued = true
      ∧ (feed stalledState [signalPacket, finishPacket, labelPacket, signalPacket]).gsSIGNAL.queued
          = true
      ∧ (feed stalledState [signalPacket, finishPacket, labelPacket, signalPacket]).gsSIGNAL.data0
          = stalledState.gsSIGNAL.data0
      ∧ (feed stalledState [signalPacket, finishPacket, labelPacket, signalPacket]).gsSIGNAL.data1
          = stalledState.gsSIGNAL.data1 :=
  ⟨rfl, queued_signal_kept stalledState
    [signalPacket, finishPacket, labelPacket, signalPacket] rfl⟩

/-- C4: when `CSRreg.SIGNAL` is set and a SIGNAL is already buffered, a
further SIGNAL record changes nothing at all (the whole state, interrupt
count included, is the one before the call) and the call returns false. -/
theorem second_stalled_signal_dropped (s : GifState) (p : ADPacket)
    (hcsr : s.CSRreg.SIGNAL = true) (hq : s.gsSIGNAL.queued = true)
    (hreg : p.reg = GIF_A_D_REG_SIGNAL) :
    Gif_HandlerAD s p = (s, false) := by
  rw [Gif_HandlerAD_of_signal s p hreg]
  simp [handleSIGNAL, hcsr, hq]

/-- Witness of C4 on a stalled unit. -/
theorem second_stalled_signal_dropped_witness :
    stalledState.CSRreg.SIGNAL = true ∧ stalledState.gsSIGNAL.queued = true
      ∧ signalPacket.reg = GIF_A_D_REG_SIGNAL
      ∧ Gif_HandlerAD stalledState signalPacket = (stalledState, false) :=
  ⟨rfl, rfl, by decide,
    second_stalled_signal_dropped stalledState signalPacket rfl rfl (by decide)⟩

/-- C5: the handler returns true exactly when the record's selector is
SIGNAL, `CSRreg.SIGNAL` is set on entry and no SIGNAL is buffered on entry;
for every other selector and every other state it returns false. -/
theorem stall_iff (s : GifState) (p : ADPacket) :
    (Gif_HandlerAD s p).2 = true
      ↔ (p.reg = GIF_A_D_REG_SIGNAL ∧ s.CSRreg.SIGNAL = true
          ∧ s.gsSIGNAL.queued = false) := by
  by_cases hreg : p.reg = GIF_A_D_REG_SIGNAL
  · rw [Gif_HandlerAD_of_signal s p hreg]
    cases hc : s.CSRreg.SIGNAL <;> cases hq : s.gsSIGNAL.queued <;>
      simp [handleSIGNAL, hc, hq, hreg]
  · unfold Gif_HandlerAD
    simp only [hreg, if_false, false_and, iff_false]
    split_ifs <;> simp

/-- C6: a FINISH record clears `gsFINISHFired`, sets `gsFINISHPending`,
returns false, raises no interrupt and leaves `CSRreg` (so `CSRreg.FINISH`),
`gsSIGNAL`, SIGID and LBLID unchanged. -/
theorem finish_record (s : GifState) (p : ADPacket)
    (hreg : p.reg = GIF_A_D_REG_FINISH) :
    (Gif_HandlerAD s p).1.gsFINISH.gsFINISHFired = false
      ∧ (Gif_HandlerAD s p).1.gsFINISH.gsFINISHPending = true
      ∧ (Gif_HandlerAD s p).2 = false
      ∧ (Gif_HandlerAD s p).1.irqs = s.irqs
      ∧ (Gif_HandlerAD s p).1.CSRreg = s.CSRreg
      ∧ (Gif_HandlerAD s p).1.gsSIGNAL = s.gsSIGNAL
      ∧ (Gif_HandlerAD s p).1.GSSIGLBLID = s.GSSIGLBLID := by
  rw [Gif_HandlerAD_of_finish s p hreg]
  simp

/-- Witness of C6 on an idle unit. -/
theorem finish_record_witness :
    finishPacket.reg = GIF_A_D_REG_FINISH
      ∧ (Gif_HandlerAD idleState finishPacket).1.gsFINISH.gsFINISHFired = false
      ∧ (Gif_HandlerAD idleState finishPacket).1.gsFINISH.gsFINISHPending = true
      ∧ (Gif_HandlerAD idleState finishPacket).2 = false
      ∧ (Gif_HandlerAD idleState finishPacket).1.irqs = idleState.irqs
      ∧ (Gif_HandlerAD idleState finishPacket).1.CSRreg = idleState.CSRreg
      ∧ (Gif_HandlerAD idleState finishPacket).1.gsSIGNAL = idleState.gsSIGNAL
      ∧ (Gif_HandlerAD idleState finishPacket).1.GSSIGLBLID = idleState.GSSIGLBLID :=
  ⟨by decide, finish_record idleState finishPacket (by decide)⟩

/-- C7: with `gsFINISHPending` set, `gsFINISHFired` clear and the finish-mask
bit clear, `Gif_FinishIRQ` raises the GS interrupt (once), sets
`CSRreg.FINISH` and sets `gsFINISHFired`. -/
theorem finish_poll_fires (s : GifState)
    (hp : s.gsFINISH.gsFINISHPending = true) (hf : s.gsFINISH.gsFINISHFired = false)
    (hm : s.GSIMR.FINISHMSK = false) :
    (Gif_FinishIRQ s).irqs = s.irqs + 1
      ∧ (Gif_FinishIRQ s).CSRreg.FINISH = true
      ∧ (Gif_FinishIRQ s).gsFINISH.gsFINISHFired = true := by
  simp [Gif_FinishIRQ, hp, hf, hm, gsIrq]

/-- Witness of C7 on a unit with a FINISH pending. -/
theorem finish_poll_fires_witness :
    finishPendingState.gsFINISH.gsFINISHPending = true
      ∧ finishPendingState.gsFINISH.gsFINISHFired = false
      ∧ finishPendingState.GSIMR.FINISHMSK = false
      ∧ (Gif_FinishIRQ finishPendingState).irqs = finishPendingState.irqs + 1
      ∧ (Gif_FinishIRQ finishPendingState).CSRreg.FINISH = true
      ∧ (Gif_FinishIRQ finishPendingState).gsFINISH.gsFINISHFired = true :=
  ⟨rfl, rfl, rfl, finish_poll_fires finishPendingState rfl rfl rfl⟩

/-- C8: after one FINISH record, which itself raises no interrupt, any run
of `Gif_FinishIRQ` calls, with the finish-mask bit and `CSRreg.FINISH` set
to arbitrary values before each call, raises the interrupt at most once:
exactly once if `gsFINISHFired` ends up set and never otherwise; and once
`gsFINISHFired` is set, it stays set and no later call raises again. -/
theorem finish_irq_at_most_once (s : GifState) (p : ADPacket)
    (hreg : p.reg = GIF_A_D_REG_FINISH) (env : List (Bool × Bool)) :
    (Gif_HandlerAD s p).1.irqs = s.irqs
      ∧ (pollRun (Gif_HandlerAD s p).1 env).irqs ≤ s.irqs + 1
      ∧ (pollRun (Gif_HandlerAD s p).1 env).irqs
          = s.irqs + (if (pollRun (Gif_HandlerAD s p).1 env).gsFINISH.gsFINISHFired
              then 1 else 0)
      ∧ ∀ more : List (Bool × Bool),
          (pollRun (Gif_HandlerAD s p).1 env).gsFINISH.gsFINISHFired = true →
            (pollRun (Gif_HandlerAD s p).1 (env ++ more)).gsFINISH.gsFINISHFired = true
              ∧ (pollRun (Gif_HandlerAD s p).1 (env ++ more)).irqs
                  = (pollRun (Gif_HandlerAD s p).1 env).irqs := by
  have hfired : (Gif_HandlerAD s p).1.gsFINISH.gsFINISHFired = false := by
    rw [Gif_HandlerAD_of_finish s p hreg]
  have hirq : (Gif_HandlerAD s p).1.irqs = s.irqs := by
    rw [Gif_HandlerAD_of_finish s p hreg]
  have hrun := (pollRun_irqs env (Gif_HandlerAD s p).1).2 hfired
  rw [hirq] at hrun
  refine ⟨hirq, ?_, hrun, ?_⟩
  · rw [hrun]; split <;> simp
  · intro more hset
    have happ : pollRun (Gif_HandlerAD s p).1 (env ++ more)
        = pollRun (pollRun (Gif_HandlerAD s p).1 env) more := by
      simp [pollRun, List.foldl_append]
    rw [happ]
    exact (pollRun_irqs more _).1 hset

/-- Witness of C8: a FINISH record followed by four polls, the first one
masked, the others with the mask and `CSRreg.FINISH` toggled. -/
theorem finish_irq_at_most_once_witness :
    finishPacket.reg = GIF_A_D_REG_FINISH
      ∧ (pollRun (Gif_HandlerAD idleState finishPacket).1
          [(true, false), (false, false), (false, true), (true, true)]).irqs
        ≤ idleState.irqs + 1 :=
  ⟨by decide,
    (finish_irq_at_most_once idleState finishPacket (by decide)
      [(true, false), (false, false), (false, true), (true, true)]).2.1⟩

/-- C9: a LABEL record sets LBLID to `(LBLID & ~data1) | (data0 & data1)`,
returns false, raises no interrupt and leaves SIGID, `CSRreg`, `gsSIGNAL`
and `gsFINISH` unchanged. -/
theorem label_record (s : GifState) (p : ADPacket)
    (hreg : p.reg = GIF_A_D_REG_LABEL) :
    (Gif_HandlerAD s p).1.GSSIGLBLID.LBLID
        = (s.GSSIGLBLID.LBLID &&& not32 p.data1) ||| (p.data0 &&& p.data1)
      ∧ (Gif_HandlerAD s p).2 = false
      ∧ (Gif_HandlerAD s p).1.irqs = s.irqs
      ∧ (Gif_HandlerAD s p).1.GSSIGLBLID.SIGID = s.GSSIGLBLID.SIGID
      ∧ (Gif_HandlerAD s p).1.CSRreg = s.CSRreg
      ∧ (Gif_HandlerAD s p).1.gsSIGNAL = s.gsSIGNAL
      ∧ (Gif_HandlerAD s p).1.gsFINISH = s.gsFINISH := by
  rw [Gif_HandlerAD_of_label s p hreg]
  simp [maskedWrite]

/-- Witness of C9 on an idle unit. -/
theorem label_record_witness :
    labelPacket.reg = GIF_A_D_REG_LABEL
      ∧ (Gif_HandlerAD idleState labelPacket).1.GSSIGLBLID.LBLID
          = (idleState.GSSIGLBLID.LBLID &&& not32 labelPacket.data1)
              ||| (labelPacket.data0 &&& labelPacket.data1)
      ∧ (Gif_HandlerAD idleState labelPacket).2 = false
      ∧ (Gif_HandlerAD idleState labelPacket).1.irqs = idleState.irqs
      ∧ (Gif_HandlerAD idleState labelPacket).1.GSSIGLBLID.SIGID = idleState.GSSIGLBLID.SIGID
      ∧ (Gif_HandlerAD idleState labelPacket).1.CSRreg = idleState.CSRreg
      ∧ (Gif_HandlerAD idleState labelPacket).1.gsSIGNAL = idleState.gsSIGNAL
      ∧ (Gif_HandlerAD idleState labelPacket).1.gsFINISH = idleState.gsFINISH :=
  ⟨by decide, label_record idleState labelPacket (by decide)⟩

/-! ## Theorems: the label merge -/

/-- C10: with `merge ((d, m), (data, mask)) = ((d & ~mask) | (data & mask),
m | mask)` on 32-bit words, folding `merge` from any start value over two
finite sequences that have the same members (any order, any repetitions),
distinct members having disjoint masks, gives the same final cell; applying
one pair twice equals applying it once, and two pairs with disjoint masks
commute. -/
theorem merge_fold_same_set (e : Nat × Nat) (xs ys : List (Nat × Nat))
    (hset : ∀ p, p ∈ xs ↔ p ∈ ys)
    (hdisj : ∀ p ∈ xs, ∀ q ∈ xs, p ≠ q → p.2 &&& q.2 = 0) :
    xs.foldl merge e = ys.foldl merge e
      ∧ (∀ p : Nat × Nat, merge (merge e p) p = merge e p)
      ∧ (∀ p q : Nat × Nat, p.2 &&& q.2 = 0 →
          merge (merge e p) q = merge (merge e q) p)
      ∧ (∀ d m data mask : Nat, d < 2 ^ 32 → m < 2 ^ 32 → data < 2 ^ 32 → mask < 2 ^ 32 →
          merge (d, m) (data, mask)
            = ((d &&& not32 mask) ||| (data &&& mask), m ||| mask)) := by
  refine ⟨foldl_merge_congr e xs ys hset hdisj, ?_, ?_, ?_⟩
  · intro p
    have h := foldl_merge_congr e [p, p] [p] (by intro a; simp)
      (by
        intro a ha b hb hab
        simp only [List.mem_cons, List.mem_singleton, List.not_mem_nil, or_false, or_self] at ha hb
        exact absurd (ha.trans hb.symm) hab)
    simpa using h
  · intro p q hpq
    by_cases heq : p = q
    · rw [heq]
    · have h := foldl_merge_congr e [p, q] [q, p] (by intro a; simp [or_comm])
        (by
          intro a ha b hb hab
          simp only [List.mem_cons, List.mem_singleton, List.not_mem_nil, or_false] at ha hb
          rcases ha with rfl | rfl <;> rcases hb with rfl | rfl
          · exact absurd rfl hab
          · exact hpq
          · rw [Nat.land_comm]; exact hpq
          · exact absurd rfl hab)
      simpa using h
  · intro d m data mask hd hm hdata hmask
    simp only [merge, maskedWrite, u32, Nat.mod_eq_of_lt hd, Nat.mod_eq_of_lt hm,
      Nat.mod_eq_of_lt hdata, Nat.mod_eq_of_lt hmask]

/-- Witness of C10: two runs over the same three pairs, in different orders
and with different repetitions, from the same start value. -/
theorem merge_fold_same_set_witness :
    (∀ p, p ∈ labelRunA ↔ p ∈ labelRunB)
      ∧ (∀ p ∈ labelRunA, ∀ q ∈ labelRunA, p ≠ q → p.2 &&& q.2 = 0)
      ∧ labelRunA.foldl merge (0xDEADBEEF, 0) = labelRunB.foldl merge (0xDEADBEEF, 0) :=
  have h1 : ∀ p, p ∈ labelRunA ↔ p ∈ labelRunB := by
    intro p
    simp only [labelRunA, labelRunB, List.mem_cons, List.mem_singleton, List.not_mem_nil,
      or_false]
    constructor
    · rintro (h | h | h | h) <;> simp [h]
    · rintro (h | h | h | h) <;> simp [h]
  have h2 : ∀ p ∈ labelRunA, ∀ q ∈ labelRunA, p ≠ q → p.2 &&& q.2 = 0 := by decide
  ⟨h1, h2, (merge_fold_same_set (0xDEADBEEF, 0) labelRunA labelRunB h1 h2).1⟩

/-! ## Lemmas on packed cells and event flags -/

/-- A packed cell is the high word times `2 ^ 32` plus the low word. -/
theorem pack64_eq (hi lo : Nat) : pack64 hi lo = u32 hi * 2 ^ 32 + u32 lo := by
  have hlt : u32 lo < 2 ^ 32 := Nat.mod_lt _ (by norm_num)
  unfold pack64
  rw [Nat.shiftLeft_eq, Nat.mul_comm, ← Nat.mul_add_lt_is_or hlt]

/-- Unpacking a packed cell gives back its two words. -/
theorem unpack64_pack64 (hi lo : Nat) : unpack64 (pack64 hi lo) = (u32 lo, u32 hi) := by
  have hlo : u32 lo < 2 ^ 32 := Nat.mod_lt _ (by norm_num)
  have hhi : u32 hi < 2 ^ 32 := Nat.mod_lt _ (by norm_num)
  unfold unpack64
  rw [Nat.shiftRight_eq_div_pow, pack64_eq]
  generalize u32 hi = a at *
  generalize u32 lo = b at *
  unfold u32
  apply Prod.ext <;> simp only <;> omega

/-- The Finish flag is bit 0. -/
theorem testBit_flagFinish (i : Nat) : InterruptFlagFinish.testBit i = decide (0 = i) := by
  unfold InterruptFlagFinish
  exact @Nat.testBit_two_pow 0 i

/-- The Signal flag is bit 1. -/
theorem testBit_flagSignal (i : Nat) : InterruptFlagSignal.testBit i = decide (1 = i) := by
  unfold InterruptFlagSignal
  exact @Nat.testBit_two_pow 1 i

/-- The Label flag is bit 2. -/
theorem testBit_flagLabel (i : Nat) : InterruptFlagLabel.testBit i = decide (2 = i) := by
  unfold InterruptFlagLabel
  exact @Nat.testBit_two_pow 2 i

/-- A value with bit `n` set is not zero. -/
theorem ne_zero_of_testBit (x n : Nat) (h : x.testBit n = true) : x ≠ 0 := by
  intro h0
  rw [h0, Nat.zero_testBit] at h
  cases h

/-- Setting one event flag leaves the test of another one unchanged. -/
theorem and_or_other_flag (x a b : Nat) (hab : ∀ i, ¬ (a.testBit i = true ∧ b.testBit i = true)) :
    (x ||| a) &&& b = x &&& b := by
  apply Nat.eq_of_testBit_eq
  intro i
  have := hab i
  rw [Nat.testBit_and, Nat.testBit_or, Nat.testBit_and]
  revert this
  cases x.testBit i <;> cases a.testBit i <;> cases b.testBit i <;> simp

/-- The three event flags are pairwise distinct bits. -/
theorem flags_disjoint :
    (∀ i, ¬ (InterruptFlagSignal.testBit i = true ∧ InterruptFlagFinish.testBit i = true))
      ∧ (∀ i, ¬ (InterruptFlagSignal.testBit i = true ∧ InterruptFlagLabel.testBit i = true))
      ∧ (∀ i, ¬ (InterruptFlagFinish.testBit i = true ∧ InterruptFlagSignal.testBit i = true))
      ∧ (∀ i, ¬ (InterruptFlagFinish.testBit i = true ∧ InterruptFlagLabel.testBit i = true))
      ∧ (∀ i, ¬ (InterruptFlagLabel.testBit i = true ∧ InterruptFlagSignal.testBit i = true))
      ∧ (∀ i, ¬ (InterruptFlagLabel.testBit i = true ∧ InterruptFlagFinish.testBit i = true)) := by
  simp only [testBit_flagFinish, testBit_flagSignal, testBit_flagLabel, decide_eq_true_eq]
  refine ⟨?_, ?_, ?_, ?_, ?_, ?_⟩ <;> intro i <;> omega

/-! ## Theorems: the worker-thread handler -/

/-- C12: a SIGNAL record handled by `Gif_HandlerAD_MTVU` overwrites the
signal cell with `data1 * 2^32 + data0` whatever it held, sets the Signal
bit of the pending-event bitmask, leaves the Finish and Label bits and the
label cell unchanged, and logs the double-SIGNAL error exactly when the
Signal bit was already set on entry. -/
theorem mtvu_signal_record (fuel : Nat) (sched : Nat → Interference) (t : VU_Thread)
    (p : ADPacket) (hreg : u8 (p.reg &&& 0x7f) = GIF_A_D_REG_SIGNAL) :
    ∃ t1, Gif_HandlerAD_MTVU fuel sched t p = some t1
      ∧ t1.gsSignal = p.data1 * 2 ^ 32 + p.data0
      ∧ t1.mtvuInterrupts = t.mtvuInterrupts ||| InterruptFlagSignal
      ∧ t1.mtvuInterrupts &&& InterruptFlagSignal ≠ 0
      ∧ t1.mtvuInterrupts &&& InterruptFlagFinish = t.mtvuInterrupts &&& InterruptFlagFinish
      ∧ t1.mtvuInterrupts &&& InterruptFlagLabel = t.mtvuInterrupts &&& InterruptFlagLabel
      ∧ t1.gsLabel = t.gsLabel
      ∧ t1.log = (if t.mtvuInterrupts &&& InterruptFlagSignal ≠ 0
          then t.log ++ [MtvuLog.doubleSignal] else t.log) := by
  have hd0 : u32 p.data0 = p.data0 := by simp [ADPacket.data0, u32]
  have hd1 : u32 p.data1 = p.data1 := by simp [ADPacket.data1, u32]
  have hres : Gif_HandlerAD_MTVU fuel sched t p
      = some { gsSignal := pack64 p.data1 p.data0
               gsLabel := t.gsLabel
               mtvuInterrupts := t.mtvuInterrupts ||| InterruptFlagSignal
               log := (if t.mtvuInterrupts &&& InterruptFlagSignal ≠ 0
                  then t.log ++ [MtvuLog.doubleSignal] else t.log) } := by
    simp only [Gif_HandlerAD_MTVU, hreg, if_true]
    split <;> rfl
  refine ⟨_, hres, ?_, rfl, ?_, ?_, ?_, rfl, rfl⟩
  · show pack64 p.data1 p.data0 = _
    rw [pack64_eq, hd0, hd1]
  · apply ne_zero_of_testBit _ 1
    show ((t.mtvuInterrupts ||| InterruptFlagSignal) &&& InterruptFlagSignal).testBit 1 = true
    rw [Nat.testBit_and, Nat.testBit_or, testBit_flagSignal]
    simp
  · exact and_or_other_flag _ _ _ flags_disjoint.1
  · exact and_or_other_flag _ _ _ flags_disjoint.2.1

/-- Witness of C12: a SIGNAL record while a Finish and a Label event are
pending. -/
theorem mtvu_signal_record_witness :
    u8 (signalPacket.reg &&& 0x7f) = GIF_A_D_REG_SIGNAL
      ∧ ∃ t1, Gif_HandlerAD_MTVU 2 (quiet []) busyThread signalPacket = some t1
        ∧ t1.gsSignal = signalPacket.data1 * 2 ^ 32 + signalPacket.data0
        ∧ t1.mtvuInterrupts = busyThread.mtvuInterrupts ||| InterruptFlagSignal
        ∧ t1.mtvuInterrupts &&& InterruptFlagSignal ≠ 0
        ∧ t1.mtvuInterrupts &&& InterruptFlagFinish
            = busyThread.mtvuInterrupts &&& InterruptFlagFinish
        ∧ t1.mtvuInterrupts &&& InterruptFlagLabel
            = busyThread.mtvuInterrupts &&& InterruptFlagLabel
        ∧ t1.gsLabel = busyThread.gsLabel
        ∧ t1.log = (if busyThread.mtvuInterrupts &&& InterruptFlagSignal ≠ 0
            then busyThread.log ++ [MtvuLog.doubleSignal] else busyThread.log) :=
  ⟨by decide, mtvu_signal_record 2 (quiet []) busyThread signalPacket (by decide)⟩

/-! ## Lemmas on the retry loop without another writer -/

/-- Once `existing` holds the cell and `wanted` the merge with it, the loop
exits with that merge at the first attempt that does not fail spuriously. -/
theorem labelRetry_steady (sched : Nat → Interference) (cell d m : Nat)
    (hw : ∀ j, (sched j).write = none) (fuel k : Nat)
    (hj : ∃ j, k ≤ j ∧ j < k + fuel ∧ (sched j).spurious = false) :
    labelRetry fuel sched k cell cell
        (pack64 (merge (unpack64 cell) (d, m)).2 (merge (unpack64 cell) (d, m)).1) d m
      = some (pack64 (merge (unpack64 cell) (d, m)).2 (merge (unpack64 cell) (d, m)).1) := by
  induction fuel generalizing k with
  | zero =>
    obtain ⟨j, h1, h2, _⟩ := hj
    omega
  | succ fuel ih =>
    unfold labelRetry
    simp only [hw k, true_and]
    by_cases hs : (sched k).spurious = false
    · simp [hs]
    · simp only [hs, if_false]
      apply ih
      obtain ⟨j, h1, h2, h3⟩ := hj
      have hne : j ≠ k := by
        intro h
        rw [h] at h3
        exact hs h3
      exact ⟨j, by omega, by omega, h3⟩

/-- Without another writer the loop of one LABEL record exits: with the raw
record when the cell is cleared and the first attempt does not fail
spuriously, with the merge of the cell and the record otherwise. -/
theorem labelRetry_quiet (sp : List Bool) (cell w0 d m : Nat) :
    labelRetry (sp.length + 2) (quiet sp) 0 cell 0 w0 d m
      = some (if cell = 0 ∧ sp.getD 0 false = false then w0
          else pack64 (merge (unpack64 cell) (d, m)).2 (merge (unpack64 cell) (d, m)).1) := by
  have hw : ∀ j, (quiet sp j).write = none := fun _ => rfl
  unfold labelRetry
  simp only [hw 0]
  by_cases hc : cell = 0 ∧ sp.getD 0 false = false
  · have hc1 : cell = 0 ∧ (quiet sp 0).spurious = false := hc
    rw [if_pos hc1, if_pos hc]
  · have hc1 : ¬ (cell = 0 ∧ (quiet sp 0).spurious = false) := hc
    rw [if_neg hc1, if_neg hc]
    apply labelRetry_steady (quiet sp) cell d m hw
    refine ⟨sp.length + 1, by omega, by omega, ?_⟩
    show sp.getD (sp.length + 1) false = false
    exact List.getD_eq_default _ _ (by omega)

/-- Without another writer a LABEL record changes only the label cell and
the Label bit. -/
theorem Gif_HandlerAD_MTVU_of_label (sp : List Bool) (t : VU_Thread) (p : ADPacket)
    (hreg : u8 (p.reg &&& 0x7f) = GIF_A_D_REG_LABEL) :
    Gif_HandlerAD_MTVU (sp.length + 2) (quiet sp) t p
      = some { t with
          gsLabel := (if t.gsLabel = 0 ∧ sp.getD 0 false = false
            then pack64 p.data1 p.data0
            else pack64 (merge (unpack64 t.gsLabel) (p.data0, p.data1)).2
              (merge (unpack64 t.gsLabel) (p.data0, p.data1)).1)
          mtvuInterrupts := t.mtvuInterrupts ||| InterruptFlagLabel } := by
  have h1 : ¬ GIF_A_D_REG_LABEL = GIF_A_D_REG_SIGNAL := by decide
  have h2 : ¬ GIF_A_D_REG_LABEL = GIF_A_D_REG_FINISH := by decide
  simp only [Gif_HandlerAD_MTVU, hreg, h1, h2, if_false, if_true, labelRetry_quiet]

/-- A FINISH record changes only the Finish bit and the log. -/
theorem Gif_HandlerAD_MTVU_of_finish (fuel : Nat) (sched : Nat → Interference)
    (t : VU_Thread) (p : ADPacket) (hreg : u8 (p.reg &&& 0x7f) = GIF_A_D_REG_FINISH) :
    Gif_HandlerAD_MTVU fuel sched t p
      = some { t with
          mtvuInterrupts := t.mtvuInterrupts ||| InterruptFlagFinish
          log := (if t.mtvuInterrupts &&& InterruptFlagFinish ≠ 0
            then t.log ++ [MtvuLog.doubleFinish] else t.log) } := by
  have h1 : ¬ GIF_A_D_REG_FINISH = GIF_A_D_REG_SIGNAL := by decide
  simp only [Gif_HandlerAD_MTVU, hreg, h1, if_false, if_true]
  split <;> rfl


/-- A LABEL or FINISH record, handled without another writer of the label
cell, leaves the signal cell and the Signal bit as they were. -/
theorem mtvu_keeps_signal (sp : List Bool) (t : VU_Thread) (p : ADPacket)
    (hreg : u8 (p.reg &&& 0x7f) = GIF_A_D_REG_LABEL
      ∨ u8 (p.reg &&& 0x7f) = GIF_A_D_REG_FINISH) :
    ∃ t1, Gif_HandlerAD_MTVU (sp.length + 2) (quiet sp) t p = some t1
      ∧ t1.gsSignal = t.gsSignal
      ∧ t1.mtvuInterrupts &&& InterruptFlagSignal
          = t.mtvuInterrupts &&& InterruptFlagSignal := by
  rcases hreg with h | h
  · exact ⟨_, Gif_HandlerAD_MTVU_of_label sp t p h, rfl,
      and_or_other_flag _ _ _ flags_disjoint.2.2.2.2.1⟩
  · exact ⟨_, Gif_HandlerAD_MTVU_of_finish _ _ t p h, rfl,
      and_or_other_flag _ _ _ flags_disjoint.2.2.1⟩

/-- A run of LABEL and FINISH records without another writer of the label
cell ends, and leaves the signal cell and the Signal bit as they were. -/
theorem mtvuFeed_keeps_signal (ps : List (ADPacket × List Bool)) (t : VU_Thread)
    (hps : ∀ q ∈ ps, u8 (q.1.reg &&& 0x7f) = GIF_A_D_REG_LABEL
      ∨ u8 (q.1.reg &&& 0x7f) = GIF_A_D_REG_FINISH) :
    ∃ t2, mtvuFeed t ps = some t2
      ∧ t2.gsSignal = t.gsSignal
      ∧ t2.mtvuInterrupts &&& InterruptFlagSignal
          = t.mtvuInterrupts &&& InterruptFlagSignal := by
  induction ps generalizing t with
  | nil => exact ⟨t, rfl, rfl, rfl⟩
  | cons q ps ih =>
    obtain ⟨p, sp⟩ := q
    obtain ⟨t1, h1, hs1, hf1⟩ := mtvu_keeps_signal sp t p (hps (p, sp) (List.mem_cons_self _ _))
    obtain ⟨t2, h2, hs2, hf2⟩ := ih t1 (fun q hq => hps q (List.mem_cons_of_mem _ hq))
    refine ⟨t2, ?_, by rw [hs2, hs1], by rw [hf2, hf1]⟩
    simp only [mtvuFeed, h1, h2]

/-- C13: after a SIGNAL record, any finite sequence of LABEL and FINISH
records through `Gif_HandlerAD_MTVU` is processed to its end and leaves the
Signal bit set and the low and high 32-bit halves of the signal cell equal
to `data0` and `data1` of the SIGNAL record. -/
theorem mtvu_signal_survives (fuel : Nat) (sched : Nat → Interference) (t : VU_Thread)
    (p : ADPacket) (ps : List (ADPacket × List Bool))
    (hreg : u8 (p.reg &&& 0x7f) = GIF_A_D_REG_SIGNAL)
    (hps : ∀ q ∈ ps, u8 (q.1.reg &&& 0x7f) = GIF_A_D_REG_LABEL
      ∨ u8 (q.1.reg &&& 0x7f) = GIF_A_D_REG_FINISH) :
    ∃ t1 t2, Gif_HandlerAD_MTVU fuel sched t p = some t1
      ∧ mtvuFeed t1 ps = some t2
      ∧ t2.mtvuInterrupts &&& InterruptFlagSignal ≠ 0
      ∧ u32 t2.gsSignal = p.data0
      ∧ u32 (t2.gsSignal >>> 32) = p.data1 := by
  have hres : Gif_HandlerAD_MTVU fuel sched t p
      = some { gsSignal := pack64 p.data1 p.data0
               gsLabel := t.gsLabel
               mtvuInterrupts := t.mtvuInterrupts ||| InterruptFlagSignal
               log := (if t.mtvuInterrupts &&& InterruptFlagSignal ≠ 0
                  then t.log ++ [MtvuLog.doubleSignal] else t.log) } := by
    simp only [Gif_HandlerAD_MTVU, hreg, if_true]
    split <;> rfl
  obtain ⟨t2, h2, hs2, hf2⟩ := mtvuFeed_keeps_signal ps _ hps
  have hd0 : u32 p.data0 = p.data0 := by simp [ADPacket.data0, u32]
  have hd1 : u32 p.data1 = p.data1 := by simp [ADPacket.data1, u32]
  have hun := unpack64_pack64 p.data1 p.data0
  rw [hd0, hd1] at hun
  refine ⟨_, t2, hres, h2, ?_, ?_, ?_⟩
  · rw [hf2]
    apply ne_zero_of_testBit _ 1
    show ((t.mtvuInterrupts ||| InterruptFlagSignal) &&& InterruptFlagSignal).testBit 1 = true
    rw [Nat.testBit_and, Nat.testBit_or, testBit_flagSignal]
    simp
  · rw [hs2]
    exact congrArg Prod.fst hun
  · rw [hs2]
    exact congrArg Prod.snd hun

/-- Witness of C13: a SIGNAL record followed by two LABEL records (the
second one with two spurious failures) and a FINISH record. -/
theorem mtvu_signal_survives_witness :
    u8 (signalPacket.reg &&& 0x7f) = GIF_A_D_REG_SIGNAL
      ∧ (∀ q ∈ [(labelPacket, []), (labelPacket, [true, true]), (finishPacket, [])],
          u8 (q.1.reg &&& 0x7f) = GIF_A_D_REG_LABEL
            ∨ u8 (q.1.reg &&& 0x7f) = GIF_A_D_REG_FINISH)
      ∧ ∃ t1 t2, Gif_HandlerAD_MTVU 2 (quiet []) idleThread signalPacket = some t1
        ∧ mtvuFeed t1 [(labelPacket, []), (labelPacket, [true, true]), (finishPacket, [])]
            = some t2
        ∧ t2.mtvuInterrupts &&& InterruptFlagSignal ≠ 0
        ∧ u32 t2.gsSignal = signalPacket.data0
        ∧ u32 (t2.gsSignal >>> 32) = signalPacket.data1 :=
  ⟨by decide, by decide,
    mtvu_signal_survives 2 (quiet []) idleThread signalPacket
      [(labelPacket, []), (labelPacket, [true, true]), (finishPacket, [])]
      (by decide) (by decide)⟩

/-- C14: two FINISH records in a row leave the pending-event bitmask equal
to what one FINISH record leaves: the Finish bit set, the Signal and Label
bits unchanged, no count kept; the second call logs the double-FINISH
error, and a call logs it exactly when the Finish bit was set on entry. -/
theorem mtvu_double_finish (fuel1 fuel2 : Nat) (sched1 sched2 : Nat → Interference)
    (t : VU_Thread) (p q : ADPacket)
    (hp : u8 (p.reg &&& 0x7f) = GIF_A_D_REG_FINISH)
    (hq : u8 (q.reg &&& 0x7f) = GIF_A_D_REG_FINISH) :
    ∃ t1 t2, Gif_HandlerAD_MTVU fuel1 sched1 t p = some t1
      ∧ Gif_HandlerAD_MTVU fuel2 sched2 t1 q = some t2
      ∧ t2.mtvuInterrupts = t1.mtvuInterrupts
      ∧ t1.mtvuInterrupts = t.mtvuInterrupts ||| InterruptFlagFinish
      ∧ t1.mtvuInterrupts &&& InterruptFlagFinish ≠ 0
      ∧ t1.mtvuInterrupts &&& InterruptFlagSignal = t.mtvuInterrupts &&& InterruptFlagSignal
      ∧ t1.mtvuInterrupts &&& InterruptFlagLabel = t.mtvuInterrupts &&& InterruptFlagLabel
      ∧ t2.log = t1.log ++ [MtvuLog.doubleFinish]
      ∧ t1.log = (if t.mtvuInterrupts &&& InterruptFlagFinish ≠ 0
          then t.log ++ [MtvuLog.doubleFinish] else t.log)
      ∧ t2.gsSignal = t.gsSignal ∧ t2.gsLabel = t.gsLabel := by
  have hset : (t.mtvuInterrupts ||| InterruptFlagFinish) &&& InterruptFlagFinish ≠ 0 := by
    apply ne_zero_of_testBit _ 0
    rw [Nat.testBit_and, Nat.testBit_or, testBit_flagFinish]
    simp
  refine ⟨_, _, Gif_HandlerAD_MTVU_of_finish fuel1 sched1 t p hp,
    Gif_HandlerAD_MTVU_of_finish fuel2 sched2 _ q hq, ?_, rfl, hset, ?_, ?_, ?_, rfl, rfl, rfl⟩
  · show (t.mtvuInterrupts ||| InterruptFlagFinish) ||| InterruptFlagFinish
      = t.mtvuInterrupts ||| InterruptFlagFinish
    rw [Nat.or_assoc, Nat.or_self]
  · exact and_or_other_flag _ _ _ flags_disjoint.2.2.1
  · exact and_or_other_flag _ _ _ flags_disjoint.2.2.2.1
  · show (if (t.mtvuInterrupts ||| InterruptFlagFinish) &&& InterruptFlagFinish ≠ 0 then _ else _)
      = _
    rw [if_pos hset]

/-- Witness of C14: two FINISH records on an idle worker thread. -/
theorem mtvu_double_finish_witness :
    u8 (finishPacket.reg &&& 0x7f) = GIF_A_D_REG_FINISH
      ∧ ∃ t1 t2, Gif_HandlerAD_MTVU 2 (quiet []) idleThread finishPacket = some t1
        ∧ Gif_HandlerAD_MTVU 2 (quiet []) t1 finishPacket = some t2
        ∧ t2.mtvuInterrupts = t1.mtvuInterrupts
        ∧ t1.mtvuInterrupts = idleThread.mtvuInterrupts ||| InterruptFlagFinish
        ∧ t1.mtvuInterrupts &&& InterruptFlagFinish ≠ 0
        ∧ t1.mtvuInterrupts &&& InterruptFlagSignal
            = idleThread.mtvuInterrupts &&& InterruptFlagSignal
        ∧ t1.mtvuInterrupts &&& InterruptFlagLabel
            = idleThread.mtvuInterrupts &&& InterruptFlagLabel
        ∧ t2.log = t1.log ++ [MtvuLog.doubleFinish]
        ∧ t1.log = (if idleThread.mtvuInterrupts &&& InterruptFlagFinish ≠ 0
            then idleThread.log ++ [MtvuLog.doubleFinish] else idleThread.log)
        ∧ t2.gsSignal = idleThread.gsSignal ∧ t2.gsLabel = idleThread.gsLabel :=
  ⟨by decide,
    mtvu_double_finish 2 2 (quiet []) (quiet []) idleThread finishPacket finishPacket
      (by decide) (by decide)⟩


/-! ## Theorems: the download size -/

/-- A record whose selector is TRXDIR reaches the TRXDIR branch. -/
theorem Gif_HandlerAD_of_trxdir (s : GifState) (p : ADPacket)
    (hreg : p.reg = GIF_A_D_REG_TRXDIR) : Gif_HandlerAD s p = (handleTRXDIR s p, false) := by
  simp [Gif_HandlerAD, hreg, GIF_A_D_REG_BITBLTBUF, GIF_A_D_REG_TRXREG, GIF_A_D_REG_TRXDIR]

/-- The product of two 12-bit fields and a pixel size of at most 32 bits
fits in 32 bits. -/
theorem download_product_lt (s : GifState) (bpp : Nat) (hb : bpp ≤ 32) :
    s.vif1.RRW * s.vif1.RRH * bpp < 2 ^ 32 := by
  have hw : s.vif1.RRW ≤ 4095 := by
    have := Nat.mod_lt s.vif1.reg2 (show 0 < 4096 by norm_num)
    unfold VifXfer.RRW; omega
  have hh : s.vif1.RRH ≤ 4095 := by
    have := Nat.mod_lt (s.vif1.reg2 / 2 ^ 32) (show 0 < 4096 by norm_num)
    unfold VifXfer.RRH; omega
  calc s.vif1.RRW * s.vif1.RRH * bpp ≤ 4095 * 4095 * 32 :=
        Nat.mul_le_mul (Nat.mul_le_mul hw hh) hb
    _ < 2 ^ 32 := by norm_num

/-- C15: a device-to-host TRXDIR record, with the stored pixel format `f`
in 0..3 (bits per pixel 32, 24, 16, 8) and the stored rectangle `RRW` by
`RRH` (both below 4096), sets `GSLastDownloadSize` to
`RRW * RRH * bitsPerPixel / 128` rounded down, the 32-bit product does not
overflow, and the call returns false; format 2 with a 64 by 32 rectangle
gives 256. -/
theorem download_size (s : GifState) (p : ADPacket) (f bpp : Nat)
    (hreg : p.reg = GIF_A_D_REG_TRXDIR) (hdir : p.byte0 &&& 3 = 1)
    (hfmt : s.vif1.SPSM &&& 7 = f)
    (hbpp : (f, bpp) ∈ [(0, 32), (1, 24), (2, 16), (3, 8)]) :
    (Gif_HandlerAD s p).1.vif1.GSLastDownloadSize = s.vif1.RRW * s.vif1.RRH * bpp / 128
      ∧ s.vif1.RRW < 4096 ∧ s.vif1.RRH < 4096
      ∧ s.vif1.RRW * s.vif1.RRH * bpp < 2 ^ 32
      ∧ (Gif_HandlerAD s p).2 = false
      ∧ (f = 2 → s.vif1.RRW = 64 → s.vif1.RRH = 32 →
          (Gif_HandlerAD s p).1.vif1.GSLastDownloadSize = 256) := by
  have hb : bppOfFormat s.vif1.SPSM = (bpp, none) ∧ bpp ≤ 32 := by
    simp only [List.mem_cons, List.mem_singleton, List.not_mem_nil, or_false,
      Prod.mk.injEq] at hbpp
    unfold bppOfFormat
    rcases hbpp with ⟨h1, h2⟩ | ⟨h1, h2⟩ | ⟨h1, h2⟩ | ⟨h1, h2⟩ <;>
      rw [hfmt, h1, h2] <;> exact ⟨rfl, by norm_num⟩
  have hlt := download_product_lt s bpp hb.2
  have hsize : (Gif_HandlerAD s p).1.vif1.GSLastDownloadSize
      = s.vif1.RRW * s.vif1.RRH * bpp / 128 := by
    rw [Gif_HandlerAD_of_trxdir s p hreg]
    simp only [handleTRXDIR, hdir, if_true, hb.1]
    rw [Nat.shiftRight_eq_div_pow]
    unfold u32
    rw [Nat.mod_eq_of_lt hlt]
  refine ⟨hsize, ?_, ?_, hlt, ?_, ?_⟩
  · exact Nat.mod_lt _ (by norm_num)
  · exact Nat.mod_lt _ (by norm_num)
  · rw [Gif_HandlerAD_of_trxdir s p hreg]
  · intro hf hw hh
    rw [hsize, hw, hh]
    rw [hf] at hbpp
    simp only [List.mem_cons, List.mem_singleton, List.not_mem_nil, or_false,
      Prod.mk.injEq] at hbpp
    rcases hbpp with ⟨h1, _⟩ | ⟨h1, _⟩ | ⟨_, h2⟩ | ⟨h1, _⟩
    · omega
    · omega
    · rw [h2]
    · omega

/-- Witness of C15: format 2 and a 64 by 32 rectangle. -/
theorem download_size_witness :
    trxdirPacket.reg = GIF_A_D_REG_TRXDIR ∧ trxdirPacket.byte0 &&& 3 = 1
      ∧ downloadState.vif1.SPSM &&& 7 = 2
      ∧ (2, 16) ∈ [(0, 32), (1, 24), (2, 16), (3, 8)]
      ∧ (Gif_HandlerAD downloadState trxdirPacket).1.vif1.GSLastDownloadSize = 256 :=
  ⟨by decide, by decide, by decide, by decide,
    (download_size downloadState trxdirPacket 2 16 (by decide) (by decide) (by decide)
      (by decide)).2.2.2.2.2 rfl (by decide) (by decide)⟩

/-- Counterexample to C16: after a format-2 download of a 64 by 32
rectangle (size 256), a format-4 download of the same rectangle logs the
error and gives 512, the size for 32 bits per pixel, not the
`64 * 32 * 16 / 128` of the previous format. -/
theorem illegal_format_not_previous_bpp :
    (feed downloadState [trxdirPacket]).vif1.GSLastDownloadSize = 64 * 32 * 16 / 128
      ∧ (feed downloadState [trxdirPacket, bitbltPacket 4]).vif1.SPSM = 4
      ∧ (feed downloadState [trxdirPacket, bitbltPacket 4, trxdirPacket]).log
          = [LogMsg.illegalFormat 4]
      ∧ (feed downloadState [trxdirPacket, bitbltPacket 4, trxdirPacket]).vif1.GSLastDownloadSize
          = 512
      ∧ (feed downloadState [trxdirPacket, bitbltPacket 4, trxdirPacket]).vif1.GSLastDownloadSize
          ≠ 64 * 32 * 16 / 128 := by
  decide

/-- C16, amended: a device-to-host TRXDIR record handled while the low
three bits of the stored pixel format, `SPSM & 7`, the value the code
switches on, are outside 0..3 (that is 4 to 7) logs the illegal-format error
and computes the download size with 32 bits per pixel, whatever earlier
transfers used: the size is `RRW * RRH * 32 / 128` rounded down, and the
call returns false. -/
theorem illegal_format_uses_32 (s : GifState) (p : ADPacket)
    (hreg : p.reg = GIF_A_D_REG_TRXDIR) (hdir : p.byte0 &&& 3 = 1)
    (hfmt : 3 < s.vif1.SPSM &&& 7) :
    (Gif_HandlerAD s p).1.log = s.log ++ [LogMsg.illegalFormat s.vif1.SPSM]
      ∧ (Gif_HandlerAD s p).1.vif1.GSLastDownloadSize = s.vif1.RRW * s.vif1.RRH * 32 / 128
      ∧ (Gif_HandlerAD s p).2 = false := by
  have hb : bppOfFormat s.vif1.SPSM = (32, some (LogMsg.illegalFormat s.vif1.SPSM)) := by
    unfold bppOfFormat
    split <;> first | omega | rfl
  have hlt := download_product_lt s 32 (le_refl _)
  rw [Gif_HandlerAD_of_trxdir s p hreg]
  simp only [handleTRXDIR, hdir, if_true, hb]
  refine ⟨trivial, ?_, trivial⟩
  rw [Nat.shiftRight_eq_div_pow]
  unfold u32
  rw [Nat.mod_eq_of_lt hlt]

/-- Witness of the amended C16: format 4 stored after a format-2 download. -/
theorem illegal_format_uses_32_witness :
    trxdirPacket.reg = GIF_A_D_REG_TRXDIR ∧ trxdirPacket.byte0 &&& 3 = 1
      ∧ 3 < (feed downloadState [trxdirPacket, bitbltPacket 4]).vif1.SPSM &&& 7
      ∧ (Gif_HandlerAD (feed downloadState [trxdirPacket, bitbltPacket 4]) trxdirPacket).1.log
          = (feed downloadState [trxdirPacket, bitbltPacket 4]).log
              ++ [LogMsg.illegalFormat
                (feed downloadState [trxdirPacket, bitbltPacket 4]).vif1.SPSM]
      ∧ (Gif_HandlerAD (feed downloadState [trxdirPacket, bitbltPacket 4])
            trxdirPacket).1.vif1.GSLastDownloadSize
          = (feed downloadState [trxdirPacket, bitbltPacket 4]).vif1.RRW
              * (feed downloadState [trxdirPacket, bitbltPacket 4]).vif1.RRH * 32 / 128
      ∧ (Gif_HandlerAD (feed downloadState [trxdirPacket, bitbltPacket 4]) trxdirPacket).2
          = false :=
  ⟨by decide, by decide, by decide,
    illegal_format_uses_32 (feed downloadState [trxdirPacket, bitbltPacket 4]) trxdirPacket
      (by decide) (by decide) (by decide)⟩


/-! ## Lemmas: coalesced label updates -/

/-- Both words of a merge fit in 32 bits. -/
theorem u32_merge (e p : Nat × Nat) :
    u32 (merge e p).1 = (merge e p).1 ∧ u32 (merge e p).2 = (merge e p).2 := by
  constructor <;> apply Nat.eq_of_testBit_eq <;> intro i
  · rw [testBit_u32, testBit_merge_fst]
    cases decide (i < 32) <;> rfl
  · rw [testBit_u32, testBit_merge_snd]
    cases decide (i < 32) <;> rfl

/-- Merging into a cell depends on the data word of the cell only through
its bits under the mask word. -/
theorem merge_masked (D M d0 d1 : Nat) :
    (merge (D, M) (d0, d1)).1 &&& (merge (D, M) (d0, d1)).2
        = (merge (D &&& M, M) (d0, d1)).1
      ∧ (merge (D, M) (d0, d1)).2 = (merge (D &&& M, M) (d0, d1)).2 := by
  constructor
  · apply Nat.eq_of_testBit_eq
    intro i
    rw [Nat.testBit_and, testBit_merge_fst, testBit_merge_snd, testBit_merge_fst,
      Nat.testBit_and]
    cases decide (i < 32) <;> cases D.testBit i <;> cases M.testBit i <;>
      cases d0.testBit i <;> cases d1.testBit i <;> rfl
  · rfl

/-- The cell a LABEL record leaves, read as `(data, mask)`: the raw record on
a cleared cell whose first attempt succeeds, the merge otherwise. -/
theorem mtvu_label_cell (sp : List Bool) (t : VU_Thread) (p : ADPacket)
    (hreg : u8 (p.reg &&& 0x7f) = GIF_A_D_REG_LABEL) :
    ∃ t1, Gif_HandlerAD_MTVU (sp.length + 2) (quiet sp) t p = some t1
      ∧ unpack64 t1.gsLabel
          = (if t.gsLabel = 0 ∧ sp.getD 0 false = false then (p.data0, p.data1)
              else merge (unpack64 t.gsLabel) (p.data0, p.data1))
      ∧ t1.mtvuInterrupts = t.mtvuInterrupts ||| InterruptFlagLabel := by
  have hd0 : u32 p.data0 = p.data0 := by simp [ADPacket.data0, u32]
  have hd1 : u32 p.data1 = p.data1 := by simp [ADPacket.data1, u32]
  refine ⟨_, Gif_HandlerAD_MTVU_of_label sp t p hreg, ?_, rfl⟩
  show unpack64 (if t.gsLabel = 0 ∧ sp.getD 0 false = false then _ else _) = _
  by_cases hc : t.gsLabel = 0 ∧ sp.getD 0 false = false
  · rw [if_pos hc, if_pos hc, unpack64_pack64, hd0, hd1]
  · rw [if_neg hc, if_neg hc, unpack64_pack64, (u32_merge _ _).1, (u32_merge _ _).2]

/-- A run of LABEL records without another writer ends; the mask word of
the cell follows the fold of merges, and so do the data bits under the
mask; the Label bit is set after a non-empty run. -/
theorem mtvuFeed_label_fold (ps : List (ADPacket × List Bool)) (t : VU_Thread)
    (e : Nat × Nat)
    (hps : ∀ q ∈ ps, u8 (q.1.reg &&& 0x7f) = GIF_A_D_REG_LABEL)
    (hm : (unpack64 t.gsLabel).2 = e.2)
    (hd : (unpack64 t.gsLabel).1 &&& (unpack64 t.gsLabel).2 = e.1) :
    ∃ t2, mtvuFeed t ps = some t2
      ∧ (unpack64 t2.gsLabel).2 = ((labelPairs ps).foldl merge e).2
      ∧ (unpack64 t2.gsLabel).1 &&& (unpack64 t2.gsLabel).2
          = ((labelPairs ps).foldl merge e).1
      ∧ (ps ≠ [] → t2.mtvuInterrupts &&& InterruptFlagLabel ≠ 0)
      ∧ (t.mtvuInterrupts &&& InterruptFlagLabel ≠ 0 →
          t2.mtvuInterrupts &&& InterruptFlagLabel ≠ 0) := by
  induction ps generalizing t e with
  | nil => exact ⟨t, rfl, hm, hd, fun h => absurd rfl h, fun h => h⟩
  | cons q ps ih =>
    obtain ⟨p, sp⟩ := q
    obtain ⟨t1, h1, hcell, hflag⟩ :=
      mtvu_label_cell sp t p (hps (p, sp) (List.mem_cons_self _ _))
    have hset : t1.mtvuInterrupts &&& InterruptFlagLabel ≠ 0 := by
      rw [hflag]
      apply ne_zero_of_testBit _ 2
      rw [Nat.testBit_and, Nat.testBit_or, testBit_flagLabel]
      simp
    have hstep : (unpack64 t1.gsLabel).2 = (merge e (p.data0, p.data1)).2
        ∧ (unpack64 t1.gsLabel).1 &&& (unpack64 t1.gsLabel).2
            = (merge e (p.data0, p.data1)).1 := by
      obtain ⟨e1, e2⟩ := e
      simp only at hm hd
      subst hm
      subst hd
      rw [hcell]
      by_cases hc : t.gsLabel = 0 ∧ sp.getD 0 false = false
      · rw [if_pos hc]
        have hz : unpack64 t.gsLabel = (0, 0) := by rw [hc.1]; rfl
        have hd0 : u32 p.data0 = p.data0 := by simp [ADPacket.data0, u32]
        have hd1 : u32 p.data1 = p.data1 := by simp [ADPacket.data1, u32]
        have h0 : u32 0 = 0 := rfl
        rw [hz]
        simp only [merge, maskedWrite, Nat.zero_and, h0, hd0, hd1, Nat.zero_or, and_self]
      · rw [if_neg hc]
        have hmm := merge_masked (unpack64 t.gsLabel).1 (unpack64 t.gsLabel).2 p.data0 p.data1
        exact ⟨hmm.2, hmm.1⟩
    obtain ⟨t2, h2, hm2, hd2, _, hkeep⟩ :=
      ih t1 (merge e (p.data0, p.data1)) (fun q hq => hps q (List.mem_cons_of_mem _ hq))
        hstep.1 hstep.2
    refine ⟨t2, ?_, hm2, hd2, fun _ => hkeep hset, fun _ => hkeep hset⟩
    simp only [mtvuFeed, h1, h2]


/-- Counterexample to C11: one LABEL record with data `0xFF` and mask `0x0F`
on a cleared cell, no spurious failure.  The first compare-and-exchange
succeeds and stores the record as it is, `0x0000000F000000FF`; the fold of
merges from `(0, 0)` gives data `0x0F`, packed `0x0000000F0000000F`. -/
theorem label_cell_not_fold :
    ∃ t2, mtvuFeed idleThread [(overwideLabelPacket, [])] = some t2
      ∧ t2.gsLabel = 0x0000000F000000FF
      ∧ (labelPairs [(overwideLabelPacket, [])]).foldl merge (0, 0) = (0x0F, 0x0F)
      ∧ t2.gsLabel
          ≠ pack64 ((labelPairs [(overwideLabelPacket, [])]).foldl merge (0, 0)).2
              ((labelPairs [(overwideLabelPacket, [])]).foldl merge (0, 0)).1 :=
  ⟨{ gsSignal := 0, gsLabel := 0x0000000F000000FF, mtvuInterrupts := 4, log := [] },
    by decide, by decide, by decide, by decide⟩

/-- C11, amended: for every finite sequence of LABEL records handled by
`Gif_HandlerAD_MTVU` on a label cell that starts cleared and has no other
writer, the run ends, the mask half of the final cell equals the mask of the
left-to-right fold of `merge` from `(0, 0)` over the records' pairs, the
data half agrees with the fold's data on every bit of that mask (data and
mask, bitwise, is the fold's data), and the Label bit of the pending-event
bitmask is set whenever the sequence is non-empty. -/
theorem mtvu_label_run (t : VU_Thread) (ps : List (ADPacket × List Bool))
    (hcell : t.gsLabel = 0)
    (hps : ∀ q ∈ ps, u8 (q.1.reg &&& 0x7f) = GIF_A_D_REG_LABEL) :
    ∃ t2, mtvuFeed t ps = some t2
      ∧ (unpack64 t2.gsLabel).2 = ((labelPairs ps).foldl merge (0, 0)).2
      ∧ (unpack64 t2.gsLabel).1 &&& (unpack64 t2.gsLabel).2
          = ((labelPairs ps).foldl merge (0, 0)).1
      ∧ (ps ≠ [] → t2.mtvuInterrupts &&& InterruptFlagLabel ≠ 0) := by
  have hz : unpack64 t.gsLabel = (0, 0) := by rw [hcell]; rfl
  obtain ⟨t2, h2, hm, hd, hne, _⟩ :=
    mtvuFeed_label_fold ps t (0, 0) hps (by rw [hz]) (by rw [hz]; rfl)
  exact ⟨t2, h2, hm, hd, hne⟩

/-- Witness of the amended C11: three LABEL records, the first with data
bits outside its mask, the second with a spurious failure. -/
theorem mtvu_label_run_witness :
    idleThread.gsLabel = 0
      ∧ (∀ q ∈ [(overwideLabelPacket, []), (labelPacket, [true]), (overwideLabelPacket, [])],
          u8 (q.1.reg &&& 0x7f) = GIF_A_D_REG_LABEL)
      ∧ ∃ t2, mtvuFeed idleThread
            [(overwideLabelPacket, []), (labelPacket, [true]), (overwideLabelPacket, [])]
          = some t2
        ∧ (unpack64 t2.gsLabel).2
            = ((labelPairs [(overwideLabelPacket, []), (labelPacket, [true]),
                (overwideLabelPacket, [])]).foldl merge (0, 0)).2
        ∧ (unpack64 t2.gsLabel).1 &&& (unpack64 t2.gsLabel).2
            = ((labelPairs [(overwideLabelPacket, []), (labelPacket, [true]),
                (overwideLabelPacket, [])]).foldl merge (0, 0)).1
        ∧ ([(overwideLabelPacket, ([] : List Bool)), (labelPacket, [true]),
              (overwideLabelPacket, [])] ≠ [] →
            t2.mtvuInterrupts &&& InterruptFlagLabel ≠ 0) :=
  ⟨rfl, by decide,
    mtvu_label_run idleThread
      [(overwideLabelPacket, []), (labelPacket, [true]), (overwideLabelPacket, [])]
      rfl (by decide)⟩

/-- The LBLID bits after feeding LABEL records to the primary-thread
handler, in terms of the fold of merges over the same pairs. -/
theorem feed_label_bits (ps : List (ADPacket × List Bool)) (s : GifState)
    (e : Nat × Nat) (L : Nat)
    (hps : ∀ q ∈ ps, q.1.reg = GIF_A_D_REG_LABEL)
    (hs : ∀ i, s.GSSIGLBLID.LBLID.testBit i
      = (decide (i < 32) && ((L.testBit i && !e.2.testBit i) || e.1.testBit i))) :
    ∀ i, (feed s (ps.map Prod.fst)).GSSIGLBLID.LBLID.testBit i
      = (decide (i < 32)
          && ((L.testBit i && !((labelPairs ps).foldl merge e).2.testBit i)
            || ((labelPairs ps).foldl merge e).1.testBit i)) := by
  induction ps generalizing s e with
  | nil => exact hs
  | cons q ps ih =>
    obtain ⟨p, sp⟩ := q
    have hreg : p.reg = GIF_A_D_REG_LABEL := hps (p, sp) (List.mem_cons_self _ _)
    have hfeed : feed s (((p, sp) :: ps).map Prod.fst)
        = feed (Gif_HandlerAD s p).1 (ps.map Prod.fst) := rfl
    have hfold : (labelPairs ((p, sp) :: ps)).foldl merge e
        = (labelPairs ps).foldl merge (merge e (p.data0, p.data1)) := rfl
    rw [hfeed, hfold]
    apply ih _ _ (fun q hq => hps q (List.mem_cons_of_mem _ hq))
    intro i
    rw [Gif_HandlerAD_of_label s p hreg]
    show (maskedWrite s.GSSIGLBLID.LBLID p.data0 p.data1).testBit i = _
    unfold maskedWrite
    rw [Nat.testBit_or, Nat.testBit_and, Nat.testBit_and, testBit_not32, hs i,
      testBit_merge_fst, testBit_merge_snd]
    have h0 : p.data0.testBit i = (decide (i < 32) && p.lo.testBit i) := testBit_u32 _ _
    have h1 : p.data1.testBit i = (decide (i < 32) && p.hi.testBit i) := testBit_u32 _ _
    simp only [h0, h1]
    cases decide (i < 32) <;> cases L.testBit i <;> cases e.1.testBit i <;>
      cases e.2.testBit i <;> cases p.lo.testBit i <;> cases p.hi.testBit i <;> rfl

/-- C20: coalescing label updates is equivalent to applying them one by
one.  For every initial 32-bit LBLID value and every finite sequence of
LABEL records, `Gif_HandlerAD_MTVU` processes the sequence on a cleared
label cell with no other writer to its end, and with `D` and `M` the data
and mask halves of the final cell, `(LBLID & ~M) | (D & M)` equals the LBLID
that `Gif_HandlerAD` reaches on the same records in the same order. -/
theorem coalesced_label_equiv (s : GifState) (t : VU_Thread)
    (ps : List (ADPacket × List Bool))
    (hL : s.GSSIGLBLID.LBLID < 2 ^ 32) (hcell : t.gsLabel = 0)
    (hps : ∀ q ∈ ps, q.1.reg = GIF_A_D_REG_LABEL) :
    ∃ t2, mtvuFeed t ps = some t2
      ∧ (s.GSSIGLBLID.LBLID &&& not32 (unpack64 t2.gsLabel).2)
            ||| ((unpack64 t2.gsLabel).1 &&& (unpack64 t2.gsLabel).2)
          = (feed s (ps.map Prod.fst)).GSSIGLBLID.LBLID := by
  have hps1 : ∀ q ∈ ps, u8 (q.1.reg &&& 0x7f) = GIF_A_D_REG_LABEL := by
    intro q hq
    rw [hps q hq]
    decide
  have hz : unpack64 t.gsLabel = (0, 0) := by rw [hcell]; rfl
  obtain ⟨t2, h2, hm, hd, _, _⟩ :=
    mtvuFeed_label_fold ps t (0, 0) hps1 (by rw [hz]) (by rw [hz]; rfl)
  have hbits := feed_label_bits ps s (0, 0) s.GSSIGLBLID.LBLID hps (by
    intro i
    by_cases hi : i < 32
    · simp [hi]
    · have hlt : s.GSSIGLBLID.LBLID < 2 ^ i :=
        lt_of_lt_of_le hL (Nat.pow_le_pow_right (by norm_num) (by omega))
      rw [Nat.testBit_lt_two_pow hlt]
      simp [hi])
  have hlow : ∀ i, ((labelPairs ps).foldl merge (0, 0)).1.testBit i = true → i < 32 := by
    intro i hi
    rw [← hd, Nat.testBit_and] at hi
    have h1 : (unpack64 t2.gsLabel).1.testBit i = true := by
      revert hi
      cases (unpack64 t2.gsLabel).1.testBit i <;> simp
    have h2 : (unpack64 t2.gsLabel).1.testBit i
        = (decide (i < 32) && t2.gsLabel.testBit i) := testBit_u32 _ _
    rw [h2] at h1
    by_contra hcon
    simp [hcon] at h1
  refine ⟨t2, h2, ?_⟩
  rw [hd, hm]
  apply Nat.eq_of_testBit_eq
  intro i
  rw [hbits i, Nat.testBit_or, Nat.testBit_and, testBit_not32]
  have hl := hlow i
  revert hl
  by_cases hi : i < 32
  · simp only [hi, decide_True, Bool.true_and]
    intro _
    trivial
  · simp only [hi, decide_False, Bool.false_and, Bool.and_false, Bool.false_or]
    intro hl
    cases hF : ((labelPairs ps).foldl merge (0, 0)).1.testBit i
    · rfl
    · exact (hl hF).elim

/-- Witness of C20: three LABEL records coalesced on an idle worker thread
and applied one by one to an idle unit. -/
theorem coalesced_label_equiv_witness :
    idleState.GSSIGLBLID.LBLID < 2 ^ 32 ∧ idleThread.gsLabel = 0
      ∧ (∀ q ∈ [(overwideLabelPacket, []), (labelPacket, [true]), (overwideLabelPacket, [])],
          q.1.reg = GIF_A_D_REG_LABEL)
      ∧ ∃ t2, mtvuFeed idleThread
            [(overwideLabelPacket, []), (labelPacket, [true]), (overwideLabelPacket, [])]
          = some t2
        ∧ (idleState.GSSIGLBLID.LBLID &&& not32 (unpack64 t2.gsLabel).2)
              ||| ((unpack64 t2.gsLabel).1 &&& (unpack64 t2.gsLabel).2)
            = (feed idleState
                ([(overwideLabelPacket, ([] : List Bool)), (labelPacket, [true]),
                  (overwideLabelPacket, [])].map Prod.fst)).GSSIGLBLID.LBLID :=
  ⟨by decide, rfl, by decide,
    coalesced_label_equiv idleState idleThread
      [(overwideLabelPacket, []), (labelPacket, [true]), (overwideLabelPacket, [])]
      (by decide) rfl (by decide)⟩


/-! ## Theorems: termination of the retry loop -/

/-- Under the busy writer the cell differs from `existing` at every attempt,
so no number of attempts is enough. -/
theorem toggleWriter_starves (d m : Nat) (fuel k cell existing wanted : Nat)
    (hne : existing ≠ (if k % 2 = 0 then 0x0000000200000002 else 0x0000000200000000)) :
    labelRetry fuel toggleWriter k cell existing wanted d m = none := by
  induction fuel generalizing k cell existing wanted with
  | zero => rfl
  | succ fuel ih =>
    unfold labelRetry
    have hw : (toggleWriter k).write
        = some (if k % 2 = 0 then 0x0000000200000002 else 0x0000000200000000) := rfl
    have hu : u64 (if k % 2 = 0 then 0x0000000200000002 else 0x0000000200000000)
        = (if k % 2 = 0 then 0x0000000200000002 else 0x0000000200000000) := by
      split <;> rfl
    simp only [hw, hu]
    have hcond : ¬ ((if k % 2 = 0 then 0x0000000200000002 else 0x0000000200000000) = existing
        ∧ (toggleWriter k).spurious = false) := fun h => hne h.1.symm
    rw [if_neg hcond]
    apply ih
    by_cases hk : k % 2 = 0
    · have hk1 : ¬ (k + 1) % 2 = 0 := by omega
      rw [if_pos hk, if_neg hk1]
      decide
    · have hk1 : (k + 1) % 2 = 0 := by omega
      rw [if_neg hk, if_pos hk1]
      decide

/-- From the attempt after which nobody disturbs the loop, two attempts are
enough. -/
theorem labelRetry_exits (sched : Nat → Interference) (d m : Nat) (n : Nat) :
    ∀ k cell existing wanted,
      (∀ j, k + n ≤ j → (sched j).write = none ∧ (sched j).spurious = false) →
      ∃ c, labelRetry (n + 2) sched k cell existing wanted d m = some c := by
  induction n with
  | zero =>
    intro k cell existing wanted hq
    have h0 := hq k (by omega)
    have h1 := hq (k + 1) (by omega)
    unfold labelRetry
    simp only [h0.1, h0.2, and_true]
    by_cases hc : cell = existing
    · exact ⟨wanted, by rw [if_pos hc]⟩
    · rw [if_neg hc]
      unfold labelRetry
      simp only [h1.1, h1.2, and_self, if_true]
      exact ⟨_, rfl⟩
  | succ n ih =>
    intro k cell existing wanted hq
    unfold labelRetry
    dsimp only
    split_ifs with h
    · exact ⟨wanted, rfl⟩
    · apply ih
      intro j hj
      exact hq j (by omega)

/-- Under the busy writer a LABEL record on an idle worker thread is still
in the retry loop after any number of attempts. -/
theorem toggleWriter_never_exits (fuel : Nat) :
    Gif_HandlerAD_MTVU fuel toggleWriter idleThread labelPacket = none := by
  have hreg : u8 (labelPacket.reg &&& 0x7f) = GIF_A_D_REG_LABEL := by decide
  have h1 : ¬ GIF_A_D_REG_LABEL = GIF_A_D_REG_SIGNAL := by decide
  have h2 : ¬ GIF_A_D_REG_LABEL = GIF_A_D_REG_FINISH := by decide
  simp only [Gif_HandlerAD_MTVU, hreg, h1, h2, if_false, if_true]
  rw [toggleWriter_starves _ _ fuel 0 _ 0 _ (by decide)]

/-- Counterexample to C19: there is an interleaving, the one of
`toggleWriter`, in which a concurrent writer stores a different label cell
before every attempt, under which the LABEL branch of `Gif_HandlerAD_MTVU`
has not left its retry loop after any number of attempts. -/
theorem retry_loop_starved :
    ∃ sched, sched = toggleWriter
      ∧ ∀ fuel, Gif_HandlerAD_MTVU fuel sched idleThread labelPacket = none :=
  ⟨toggleWriter, rfl, toggleWriter_never_exits⟩

/-- C19, amended: the retry loop of the LABEL branch ends as soon as it is
left undisturbed for two attempts: if from attempt `n` on no other thread
writes the label cell and no attempt fails spuriously, the call returns
within `n + 2` attempts, whatever happened during the first `n` attempts. -/
theorem retry_loop_exits (sched : Nat → Interference) (n : Nat) (t : VU_Thread)
    (p : ADPacket) (hreg : u8 (p.reg &&& 0x7f) = GIF_A_D_REG_LABEL)
    (hq : ∀ j, n ≤ j → (sched j).write = none ∧ (sched j).spurious = false) :
    ∃ t1, Gif_HandlerAD_MTVU (n + 2) sched t p = some t1 := by
  have h1 : ¬ GIF_A_D_REG_LABEL = GIF_A_D_REG_SIGNAL := by decide
  have h2 : ¬ GIF_A_D_REG_LABEL = GIF_A_D_REG_FINISH := by decide
  obtain ⟨c, hc⟩ := labelRetry_exits sched p.data0 p.data1 n 0 t.gsLabel 0
    (pack64 p.data1 p.data0) (fun j hj => hq j (by omega))
  simp only [Gif_HandlerAD_MTVU, hreg, h1, h2, if_false, if_true, hc]
  exact ⟨_, rfl⟩

/-- Witness of the amended C19: the busy writer disturbs the first two
attempts and then stops. -/
theorem retry_loop_exits_witness :
    u8 (labelPacket.reg &&& 0x7f) = GIF_A_D_REG_LABEL
      ∧ (∀ j, 2 ≤ j →
          (brieflyDisturbed j).write = none ∧ (brieflyDisturbed j).spurious = false)
      ∧ ∃ t1, Gif_HandlerAD_MTVU (2 + 2) brieflyDisturbed idleThread labelPacket = some t1 :=
  have hq : ∀ j, 2 ≤ j →
      (brieflyDisturbed j).write = none ∧ (brieflyDisturbed j).spurious = false := by
    intro j hj
    have hlt : ¬ j < 2 := by omega
    simp [brieflyDisturbed, hlt, quiet]
  ⟨by decide, hq, retry_loop_exits brieflyDisturbed 2 idleThread labelPacket (by decide) hq⟩


/-! ## Lemmas: save states -/

/-- Saving a region appends its words and leaves it as it is. -/
theorem FreezeMem_save (d vals : List Nat) (ok : Bool) :
    FreezeMem { saving := true, data := d, okay := ok } vals
      = ({ saving := true, data := d ++ vals, okay := ok }, vals) := by
  simp [FreezeMem]

/-- Loading a region from a stream that starts with as many words reads
exactly these words. -/
theorem FreezeMem_load (vals src more : List Nat) (ok : Bool)
    (h : src.length = vals.length) :
    FreezeMem { saving := false, data := src ++ more, okay := ok } vals
      = ({ saving := false, data := more, okay := ok }, src) := by
  have hle : vals.length ≤ (src ++ more).length := by
    rw [List.length_append]; omega
  unfold FreezeMem
  simp only [Bool.false_eq_true, if_false, hle, if_true]
  rw [← h, List.drop_left, List.take_left]

/-- Reading back the bytes of an arena that were written from it gives the
arena. -/
theorem getD_map_range (f : Nat → Nat) (n i : Nat) (hi : i < n) :
    ((List.range n).map f).getD i 0 = f i := by
  have hlen : i < ((List.range n).map f).length := by simp [hi]
  rw [List.getD_eq_getElem _ _ hlen]
  simp

/-- The entry assertions, spelled out. -/
theorem pathAssertsPass_iff (gp : Gif_Path) :
    pathAssertsPass gp = true
      ↔ gp.readAmount = 0 ∧ gp.gsPackReadAmount = 0 ∧ gp.pendingGSPackets = 0 := by
  simp [pathAssertsPass, and_assoc]

/-- Saving a path that passes the assertions appends its chunk and leaves
the path as realigned. -/
theorem gifPathFreeze_save_eq (R : Gif_Path → Gif_Path) (d : List Nat) (ok : Bool)
    (gp : Gif_Path) (ha : pathAssertsPass gp = true) :
    gifPathFreeze R (SaveState.mk true d ok) gp
      = some (SaveState.mk true (d ++ pathChunk (pathAsSaved R gp)) ok, pathAsSaved R gp) := by
  have harena : ∀ (f : Nat → Nat) (n : Nat),
      (fun i => if i < n then ((List.range n).map f).getD i 0 else f i) = f := by
    intro f n
    funext i
    by_cases hi : i < n
    · rw [if_pos hi]; exact getD_map_range f n i hi
    · rw [if_neg hi]
  obtain ⟨ra, buf, cs, gra, rest, fp, pend, mtvu, arena⟩ := gp
  unfold gifPathFreeze
  cases mtvu <;>
    simp only [ha, Bool.not_true, Bool.not_false, Bool.false_eq_true, if_false, if_true,
      Bool.and_true, Bool.and_false, Bool.true_and, Bool.false_and, FreezeMem_save,
      List.getD_cons_zero, List.getD_cons_succ, pathChunk, pathAsSaved, List.append_assoc,
      List.cons_append, List.nil_append, List.singleton_append, harena]

/-- Loading the chunk of a saved path into a live path that passes the
assertions. -/
theorem gifPathFreeze_load_eq (R : Gif_Path → Gif_Path) (src live : Gif_Path)
    (more : List Nat) (ok : Bool) (ha : pathAssertsPass live = true) :
    gifPathFreeze R (SaveState.mk false (pathChunk src ++ more) ok) live
      = some (SaveState.mk false more ok, pathAsLoaded src live) := by
  have h1 : FreezeMem (SaveState.mk false (pathChunk src ++ more) ok) [live.fakePackets]
      = (SaveState.mk false
          ([src.readAmount, src.buffer, src.curSize, src.gsPackReadAmount, src.rest]
            ++ ((List.range src.curSize).map src.arena ++ more)) ok,
          [src.fakePackets]) :=
    FreezeMem_load [live.fakePackets] [src.fakePackets] _ ok rfl
  have h2 : ∀ a b c d e : Nat,
      FreezeMem (SaveState.mk false
          ([src.readAmount, src.buffer, src.curSize, src.gsPackReadAmount, src.rest]
            ++ ((List.range src.curSize).map src.arena ++ more)) ok) [a, b, c, d, e]
      = (SaveState.mk false ((List.range src.curSize).map src.arena ++ more) ok,
          [src.readAmount, src.buffer, src.curSize, src.gsPackReadAmount, src.rest]) :=
    fun a b c d e => FreezeMem_load [a, b, c, d, e] _ _ ok rfl
  have h3 : ∀ f : Nat → Nat,
      FreezeMem (SaveState.mk false ((List.range src.curSize).map src.arena ++ more) ok)
        ((List.range src.curSize).map f)
      = (SaveState.mk false more ok, (List.range src.curSize).map src.arena) :=
    fun f => FreezeMem_load _ _ _ ok (by simp)
  have harena : (fun i => if i < src.curSize
        then ((List.range src.curSize).map src.arena).getD i 0 else live.arena i)
      = (fun i => if i < src.curSize then src.arena i else live.arena i) := by
    funext i
    by_cases hi : i < src.curSize
    · rw [if_pos hi, if_pos hi]; exact getD_map_range src.arena src.curSize i hi
    · rw [if_neg hi, if_neg hi]
  unfold gifPathFreeze
  simp only [ha, Bool.not_true, Bool.false_eq_true, if_false, Bool.and_false, Bool.not_false,
    if_true, h1, List.getD_cons_zero, h2, List.getD_cons_succ, h3, harena]
  rfl

/-- Reading a `bool` member back. -/
theorem wordBool_boolWord (b : Bool) : wordBool (boolWord b) = b := by
  cases b <;> rfl

/-- The stream `gifFreeze` writes for a unit whose paths pass the
assertions: the header, then the chunks of the three paths as saved. -/
theorem gifFreeze_save_data (R : Gif_Path → Gif_Path) (S : Gif_Unit)
    (h1 : pathAssertsPass S.gifPath1 = true) (h2 : pathAssertsPass S.gifPath2 = true)
    (h3 : pathAssertsPass S.gifPath3 = true) :
    (gifFreeze R (SaveState.mk true [] true) S).map (fun r => r.1.data)
      = some (unitHeader S ++ (pathChunk (pathAsSaved R S.gifPath1)
          ++ (pathChunk (pathAsSaved R S.gifPath2) ++ pathChunk (pathAsSaved R S.gifPath3)))) := by
  unfold gifFreeze FreezeTag
  simp only [if_true, Bool.not_true, Bool.false_eq_true, if_false, FreezeMem_save,
    gifPathFreeze_save_eq, h1, h2, h3, Option.map_some', unitHeader, List.nil_append,
    List.append_assoc, List.cons_append, List.singleton_append]

/-- Loading a stream that `gifFreeze` wrote for the unit `S`, with the paths
`p1`, `p2`, `p3` as saved, into a live unit whose paths pass the
assertions. -/
theorem gifFreeze_load (R : Gif_Path → Gif_Path) (S L : Gif_Unit) (p1 p2 p3 : Gif_Path)
    (more : List Nat)
    (h1 : pathAssertsPass L.gifPath1 = true) (h2 : pathAssertsPass L.gifPath2 = true)
    (h3 : pathAssertsPass L.gifPath3 = true) :
    ∃ U st, gifFreeze R (SaveState.mk false
          (unitHeader S ++ (pathChunk p1 ++ (pathChunk p2 ++ pathChunk p3)) ++ more) true) L
        = some (st, U, true)
      ∧ st.data = more
      ∧ U.gifPath1 = pathAsLoaded p1 L.gifPath1
      ∧ U.gifPath2 = pathAsLoaded p2 L.gifPath2
      ∧ U.gifPath3 = pathAsLoaded p3 L.gifPath3
      ∧ U.stat = S.stat ∧ U.lastTranType = S.lastTranType
      ∧ U.regs.gsSIGNAL = S.regs.gsSIGNAL ∧ U.regs.gsFINISH = S.regs.gsFINISH
      ∧ U.regs.GSSIGLBLID = L.regs.GSSIGLBLID ∧ U.regs.CSRreg = L.regs.CSRreg := by
  have l1 : ∀ (a x : Nat) (r : List Nat),
      FreezeMem (SaveState.mk false (a :: r) true) [x] = (SaveState.mk false r true, [a]) :=
    fun a x r => FreezeMem_load [x] [a] r true rfl
  have l2 : ∀ (a b x y : Nat) (r : List Nat),
      FreezeMem (SaveState.mk false (a :: b :: r) true) [x, y]
        = (SaveState.mk false r true, [a, b]) :=
    fun a b x y r => FreezeMem_load [x, y] [a, b] r true rfl
  have l3 : ∀ (a b c x y z : Nat) (r : List Nat),
      FreezeMem (SaveState.mk false (a :: b :: c :: r) true) [x, y, z]
        = (SaveState.mk false r true, [a, b, c]) :=
    fun a b c x y z r => FreezeMem_load [x, y, z] [a, b, c] r true rfl
  unfold gifFreeze FreezeTag
  simp only [unitHeader, List.cons_append, List.nil_append, List.append_assoc, l1, l2, l3,
    Bool.false_eq_true, if_false, decide_True, Bool.not_true, List.getD_cons_zero,
    List.getD_cons_succ, gifPathFreeze_load_eq, h1, h2, h3, wordBool_boolWord]
  refine ⟨_, _, rfl, rfl, ?_⟩
  split_ifs <;> exact ⟨rfl, rfl, rfl, rfl, rfl, rfl, rfl, rfl, rfl⟩

/-! ## Theorems: save states -/

/-- Counterexample to C17: `savedUnit` meets the precondition on its three
paths; saving it and loading the stream into `liveUnit` leaves the
`GSSIGLBLID` of the live unit, which differs from the one of the saved
unit. -/
theorem thaw_keeps_live_siglblid :
    pathAssertsPass savedUnit.gifPath1 = true ∧ pathAssertsPass savedUnit.gifPath2 = true
      ∧ pathAssertsPass savedUnit.gifPath3 = true
      ∧ (thawOfFreeze realignFromSpec savedUnit liveUnit []).map (fun u => u.regs.GSSIGLBLID)
          = some liveUnit.regs.GSSIGLBLID
      ∧ (thawOfFreeze realignFromSpec savedUnit liveUnit []).map (fun u => u.regs.GSSIGLBLID)
          ≠ some savedUnit.regs.GSSIGLBLID := by
  decide

/-- The loaded path has the size and the first bytes of the path that was
saved, when realigning leaves these alone. -/
theorem pathAsLoaded_of_saved (R : Gif_Path → Gif_Path) (gp live : Gif_Path)
    (hR : ∀ g, pathAssertsPass g = true →
      (R g).curSize = g.curSize ∧ ∀ i, i < g.curSize → (R g).arena i = g.arena i)
    (ha : pathAssertsPass gp = true) :
    (pathAsLoaded (pathAsSaved R gp) live).curSize = gp.curSize
      ∧ (∀ i, i < gp.curSize → (pathAsLoaded (pathAsSaved R gp) live).arena i = gp.arena i)
      ∧ (pathAsLoaded (pathAsSaved R gp) live).readAmount = 0
      ∧ (pathAsLoaded (pathAsSaved R gp) live).buffer = live.buffer := by
  have hsize : (pathAsSaved R gp).curSize = gp.curSize := by
    unfold pathAsSaved
    split
    · rfl
    · exact (hR gp ha).1
  have hbytes : ∀ i, i < gp.curSize → (pathAsSaved R gp).arena i = gp.arena i := by
    intro i hi
    unfold pathAsSaved
    split
    · rfl
    · exact (hR gp ha).2 i hi
  refine ⟨hsize, ?_, rfl, rfl⟩
  intro i hi
  show (if i < (pathAsSaved R gp).curSize then (pathAsSaved R gp).arena i else live.arena i)
    = gp.arena i
  rw [hsize, if_pos hi, hbytes i hi]

/-- C17, amended: for every unit state `S` whose three paths have
`readAmount = 0`, `gsPack.readAmount = 0` and no pending GS packets, saving
`S` with `gifFreeze` and loading the produced stream with `gifFreeze` into
any live unit whose paths pass the same entry assertions yields a unit whose
three paths each have `S`'s `curSize` and `S`'s first `curSize` arena bytes,
and whose members `stat`, `gsSIGNAL`, `gsFINISH` and `lastTranType` equal
those of `S`; `GSSIGLBLID` is not in the stream and stays the one of the
live unit.  `RealignPacket` is assumed to leave the size and the buffered
bytes of a path with nothing in flight as they are. -/
theorem freeze_thaw_roundtrip (R : Gif_Path → Gif_Path) (S L : Gif_Unit) (more : List Nat)
    (hR : ∀ g, pathAssertsPass g = true →
      (R g).curSize = g.curSize ∧ ∀ i, i < g.curSize → (R g).arena i = g.arena i)
    (hS1 : pathAssertsPass S.gifPath1 = true) (hS2 : pathAssertsPass S.gifPath2 = true)
    (hS3 : pathAssertsPass S.gifPath3 = true)
    (hL1 : pathAssertsPass L.gifPath1 = true) (hL2 : pathAssertsPass L.gifPath2 = true)
    (hL3 : pathAssertsPass L.gifPath3 = true) :
    ∃ U, thawOfFreeze R S L more = some U
      ∧ (U.gifPath1.curSize = S.gifPath1.curSize
          ∧ ∀ i, i < S.gifPath1.curSize → U.gifPath1.arena i = S.gifPath1.arena i)
      ∧ (U.gifPath2.curSize = S.gifPath2.curSize
          ∧ ∀ i, i < S.gifPath2.curSize → U.gifPath2.arena i = S.gifPath2.arena i)
      ∧ (U.gifPath3.curSize = S.gifPath3.curSize
          ∧ ∀ i, i < S.gifPath3.curSize → U.gifPath3.arena i = S.gifPath3.arena i)
      ∧ U.stat = S.stat ∧ U.regs.gsSIGNAL = S.regs.gsSIGNAL
      ∧ U.regs.gsFINISH = S.regs.gsFINISH ∧ U.lastTranType = S.lastTranType
      ∧ U.regs.GSSIGLBLID = L.regs.GSSIGLBLID := by
  have hd := gifFreeze_save_data R S hS1 hS2 hS3
  obtain ⟨U, st, hload, _, hp1, hp2, hp3, hstat, hlast, hsig, hfin, hlbl, _⟩ :=
    gifFreeze_load R S L (pathAsSaved R S.gifPath1) (pathAsSaved R S.gifPath2)
      (pathAsSaved R S.gifPath3) more hL1 hL2 hL3
  have q1 := pathAsLoaded_of_saved R S.gifPath1 L.gifPath1 hR hS1
  have q2 := pathAsLoaded_of_saved R S.gifPath2 L.gifPath2 hR hS2
  have q3 := pathAsLoaded_of_saved R S.gifPath3 L.gifPath3 hR hS3
  unfold thawOfFreeze
  cases hsave : gifFreeze R (SaveState.mk true [] true) S with
  | none =>
    rw [hsave] at hd
    simp at hd
  | some r =>
    rw [hsave] at hd
    simp only [Option.map_some', Option.some.injEq] at hd
    simp only [hd, hload]
    refine ⟨U, rfl, ?_, ?_, ?_, hstat, hsig, hfin, hlast, hlbl⟩
    · rw [hp1]; exact ⟨q1.1, q1.2.1⟩
    · rw [hp2]; exact ⟨q2.1, q2.2.1⟩
    · rw [hp3]; exact ⟨q3.1, q3.2.1⟩

/-- The realignment described by the spec leaves a path with nothing in
flight as it is. -/
theorem realignFromSpec_idle (g : Gif_Path) (ha : pathAssertsPass g = true) :
    (realignFromSpec g).curSize = g.curSize
      ∧ ∀ i, i < g.curSize → (realignFromSpec g).arena i = g.arena i := by
  have h0 := ((pathAssertsPass_iff g).1 ha).1
  unfold realignFromSpec
  simp [h0]

/-- Witness of the amended C17: `savedUnit` saved and loaded into
`liveUnit`, with the realignment described by the spec. -/
theorem freeze_thaw_roundtrip_witness :
    (∀ g, pathAssertsPass g = true →
        (realignFromSpec g).curSize = g.curSize
          ∧ ∀ i, i < g.curSize → (realignFromSpec g).arena i = g.arena i)
      ∧ pathAssertsPass savedUnit.gifPath1 = true ∧ pathAssertsPass savedUnit.gifPath2 = true
      ∧ pathAssertsPass savedUnit.gifPath3 = true
      ∧ pathAssertsPass liveUnit.gifPath1 = true ∧ pathAssertsPass liveUnit.gifPath2 = true
      ∧ pathAssertsPass liveUnit.gifPath3 = true
      ∧ ∃ U, thawOfFreeze realignFromSpec savedUnit liveUnit [99] = some U
        ∧ (U.gifPath1.curSize = savedUnit.gifPath1.curSize
            ∧ ∀ i, i < savedUnit.gifPath1.curSize →
              U.gifPath1.arena i = savedUnit.gifPath1.arena i)
        ∧ (U.gifPath2.curSize = savedUnit.gifPath2.curSize
            ∧ ∀ i, i < savedUnit.gifPath2.curSize →
              U.gifPath2.arena i = savedUnit.gifPath2.arena i)
        ∧ (U.gifPath3.curSize = savedUnit.gifPath3.curSize
            ∧ ∀ i, i < savedUnit.gifPath3.curSize →
              U.gifPath3.arena i = savedUnit.gifPath3.arena i)
        ∧ U.stat = savedUnit.stat ∧ U.regs.gsSIGNAL = savedUnit.regs.gsSIGNAL
        ∧ U.regs.gsFINISH = savedUnit.regs.gsFINISH
        ∧ U.lastTranType = savedUnit.lastTranType
        ∧ U.regs.GSSIGLBLID = liveUnit.regs.GSSIGLBLID :=
  ⟨realignFromSpec_idle, rfl, rfl, rfl, rfl, rfl, rfl,
    freeze_thaw_roundtrip realignFromSpec savedUnit liveUnit [99] realignFromSpec_idle
      rfl rfl rfl rfl rfl rfl⟩


/-- C18: after `gifPathFreeze` has run in load mode, for every stream and
every live path, `readAmount` (and `gsPack.readAmount`) and the number of
pending GS packets of the path are 0 whatever the stream holds, and `buffer`
is the pointer the path had before the call; the call runs to its end on
every live path that passes its entry assertions. -/
theorem path_load_resets (R : Gif_Path → Gif_Path) (st : SaveState) (gp : Gif_Path)
    (hload : st.saving = false) :
    (∀ r, gifPathFreeze R st gp = some r →
        r.2.readAmount = 0 ∧ r.2.gsPackReadAmount = 0 ∧ r.2.pendingGSPackets = 0
          ∧ r.2.buffer = gp.buffer)
      ∧ (pathAssertsPass gp = true → ∃ r, gifPathFreeze R st gp = some r) := by
  by_cases ha : pathAssertsPass gp = true
  · have hp := ((pathAssertsPass_iff gp).1 ha).2.2
    constructor
    · intro r hr
      unfold gifPathFreeze at hr
      simp only [ha, hload, Bool.not_true, Bool.false_eq_true, if_false, Bool.and_false,
        Bool.not_false, if_true, Option.some.injEq] at hr
      rw [← hr]
      exact ⟨rfl, rfl, hp, rfl⟩
    · intro _
      unfold gifPathFreeze
      simp only [ha, Bool.not_true, Bool.false_eq_true, if_false]
      exact ⟨_, rfl⟩
  · constructor
    · intro r hr
      unfold gifPathFreeze at hr
      simp [ha] at hr
    · intro h
      exact absurd h ha

/-- Witness of C18: a stream that stores non-zero read amounts, loaded into
a live path. -/
theorem path_load_resets_witness :
    (SaveState.mk false [5, 6, 7, 2, 9, 1, 0xAA, 0xBB] true).saving = false
      ∧ (∀ r, gifPathFreeze realignFromSpec
            (SaveState.mk false [5, 6, 7, 2, 9, 1, 0xAA, 0xBB] true) livePath = some r →
          r.2.readAmount = 0 ∧ r.2.gsPackReadAmount = 0 ∧ r.2.pendingGSPackets = 0
            ∧ r.2.buffer = livePath.buffer)
      ∧ (pathAssertsPass livePath = true →
          ∃ r, gifPathFreeze realignFromSpec
            (SaveState.mk false [5, 6, 7, 2, 9, 1, 0xAA, 0xBB] true) livePath = some r) :=
  ⟨rfl, path_load_resets realignFromSpec
    (SaveState.mk false [5, 6, 7, 2, 9, 1, 0xAA, 0xBB] true) livePath rfl⟩

/-! ## Theorems: selector decoding -/

/-- The ids for which `Gif_HandlerAD_Debug` returns true: BITBLTBUF, TRXREG,
TRXDIR, SIGNAL, FINISH and LABEL, and no other. -/
theorem Gif_HandlerAD_Debug_true_iff (p : ADPacket) :
    (Gif_HandlerAD_Debug p).1 = true
      ↔ u8 (p.reg &&& 0x7f) ∈ [0x50, 0x52, 0x53, 0x60, 0x61, 0x62] := by
  unfold Gif_HandlerAD_Debug
  simp only [List.mem_cons, List.mem_singleton, List.not_mem_nil, or_false]
  split_ifs with h1 h2 h3 h4 h5 h6 h7 <;> simp_all

/-- A selector byte below `0x80` is its own register id. -/
theorem selector_mask_small (p : ADPacket) (h : p.reg < 0x80) :
    u8 (p.reg &&& 0x7f) = p.reg := by
  have hmask : p.reg &&& 0x7f = p.reg % 2 ^ 7 := Nat.and_pow_two_sub_one_eq_mod p.reg 7
  unfold u8
  rw [hmask]
  omega

/-- C21, at the failing input: for a TRXPOS record (register id `0x51`, in
the bulk-transfer-setup range) `Gif_HandlerAD_Debug` returns false and logs
nothing, although `Gif_HandlerAD` acts on the record: it stores the payload
in `transfer_registers[1]`. -/
theorem debug_misses_trxpos :
    u8 (trxposPacket.reg &&& 0x7f) = GIF_A_D_REG_TRXPOS
      ∧ (GIF_A_D_REG_BITBLTBUF ≤ GIF_A_D_REG_TRXPOS ∧ GIF_A_D_REG_TRXPOS ≤ GIF_A_D_REG_TRXREG)
      ∧ Gif_HandlerAD_Debug trxposPacket = (false, none)
      ∧ (Gif_HandlerAD idleState trxposPacket).1.vif1.reg1 = trxposPacket.qword
      ∧ (Gif_HandlerAD idleState trxposPacket).1 ≠ idleState
      ∧ (Gif_HandlerAD_Debug (bitbltPacket 2)).1 = true
      ∧ (Gif_HandlerAD_Debug (trxregPacket 64 32)).1 = true := by
  decide

/-- C22, at the failing input: the selector byte `0xE0` has register id
`0x60`.  `Gif_HandlerAD_MTVU` handles the record as the SIGNAL record with
selector `0x60` (payload stored, Signal bit set); `Gif_HandlerAD` compares
the whole byte, takes no branch and leaves the state as it is, while the
record with selector `0x60` is handled as SIGNAL. -/
theorem primary_ignores_high_selector :
    u8 (highSignalPacket.reg &&& 0x7f) = GIF_A_D_REG_SIGNAL
      ∧ highSignalPacket.reg ≠ GIF_A_D_REG_SIGNAL
      ∧ Gif_HandlerAD_MTVU 2 (quiet []) idleThread highSignalPacket
          = Gif_HandlerAD_MTVU 2 (quiet []) idleThread signalPacket
      ∧ Gif_HandlerAD_MTVU 2 (quiet []) idleThread highSignalPacket
          = some { gsSignal := 0x0000FFFF12345678, gsLabel := 0,
                   mtvuInterrupts := InterruptFlagSignal, log := [] }
      ∧ Gif_HandlerAD idleState highSignalPacket = (idleState, false)
      ∧ Gif_HandlerAD idleState signalPacket ≠ (idleState, false)
      ∧ (Gif_HandlerAD idleState signalPacket).1.CSRreg.SIGNAL = true := by
  decide


end Gif

namespace CDVD

/-! ## Theorems: sector numbers as minute, second, frame -/

/-- A number below 100 is encoded as a valid packed BCD byte that decodes
back to it. -/
theorem dec_to_bcd_roundtrip : ∀ d, d < 100 →
    validBCD (dec_to_bcd d) ∧ bcdValue (dec_to_bcd d) = d := by
  decide

/-- The bytes `lsn_to_msf` writes for a 32-bit sector number are valid packed
BCD with frame below 75, second below 60 and minute below 100, and stand
for the sector number modulo 450000. -/
theorem lsn_to_msf_value (n : Nat) (hn : n < 2 ^ 32) :
    validBCD (lsn_to_msf n).1 ∧ validBCD (lsn_to_msf n).2.1 ∧ validBCD (lsn_to_msf n).2.2
      ∧ bcdValue (lsn_to_msf n).2.2 < 75
      ∧ bcdValue (lsn_to_msf n).2.1 < 60
      ∧ bcdValue (lsn_to_msf n).1 < 100
      ∧ msfValue (lsn_to_msf n) = n % 450000 := by
  have h32 : n % 2 ^ 32 = n := Nat.mod_eq_of_lt hn
  have hf := dec_to_bcd_roundtrip (n % 75) (by omega)
  have hs := dec_to_bcd_roundtrip (n / 75 % 60) (by omega)
  have hm := dec_to_bcd_roundtrip (n / 75 / 60 % 100) (by omega)
  have e3 : bcdValue (lsn_to_msf n).2.2 = n % 75 := by
    simp only [lsn_to_msf, h32]; exact hf.2
  have e2 : bcdValue (lsn_to_msf n).2.1 = n / 75 % 60 := by
    simp only [lsn_to_msf, h32]; exact hs.2
  have e1 : bcdValue (lsn_to_msf n).1 = n / 75 / 60 % 100 := by
    simp only [lsn_to_msf, h32]; exact hm.2
  refine ⟨?_, ?_, ?_, ?_, ?_, ?_, ?_⟩
  · simp only [lsn_to_msf, h32]; exact hm.1
  · simp only [lsn_to_msf, h32]; exact hs.1
  · simp only [lsn_to_msf, h32]; exact hf.1
  · rw [e3]; omega
  · rw [e2]; omega
  · rw [e1]; omega
  · unfold msfValue
    rw [e1, e2, e3]
    omega

/-- The track loop is left with its condition false when it is given
`etrack - i` turns. -/
theorem trackLoop_exit (etrack : Nat) (tracks : Nat → cdvdTrack) (lsn : Nat)
    (turns i : Nat) (h : etrack - i ≤ turns) :
    ¬ (trackLoop etrack tracks lsn turns i < etrack
      ∧ (tracks (trackLoop etrack tracks lsn turns i + 1)).start_lba % 2 ^ 32 ≤ lsn) := by
  induction turns generalizing i with
  | zero =>
    unfold trackLoop
    intro hc
    omega
  | succ turns ih =>
    unfold trackLoop
    split_ifs with hc
    · exact ih (i + 1) (by omega)
    · exact hc

/-- Counterexample to C23: on a disc of 450000 sectors with one track,
sector 449850 is below 450000 and `DISCreadSubQ` reports the absolute
position 00:00:00, which stands for sector 0; for sector 0 it reports
00:02:00, which stands for 150; and on a disc with a second track at sector
1000 the track position of sector 1500 stands for 500.  None of these
decodes back to the sector number. -/
theorem subq_position_not_lsn :
    449850 < 450000
      ∧ (DISCreadSubQ 450000 1 1 oneTrack none 449850).map
          (fun q => (q.discM, q.discS, q.discF)) = some (0x00, 0x00, 0x00)
      ∧ (DISCreadSubQ 450000 1 1 oneTrack none 449850).map
          (fun q => msfValue (q.discM, q.discS, q.discF)) ≠ some 449850
      ∧ (DISCreadSubQ 450000 1 1 oneTrack none 0).map
          (fun q => (q.discM, q.discS, q.discF)) = some (0x00, 0x02, 0x00)
      ∧ (DISCreadSubQ 450000 1 1 oneTrack none 0).map
          (fun q => msfValue (q.discM, q.discS, q.discF)) = some 150
      ∧ (DISCreadSubQ 100000 1 3 threeTracks none 1500).map
          (fun q => (q.trackNum, msfValue (q.trackM, q.trackS, q.trackF))) = some (2, 500) := by
  decide

/-- C23, amended: for every sector number `lsn` below 450000 the three bytes
`lsn_to_msf` writes are valid packed BCD; their values satisfy frame < 75,
second < 60, minute < 100 and `75 * (60 * minute + second) + frame = lsn`.
`DISCreadSubQ` returns -1 and reports nothing when `lsn` is not below the
sector count; otherwise its absolute position is `lsn_to_msf` of
`lsn + 150` and stands for `(lsn + 150) mod 450000`, and its track position
is `lsn_to_msf` of `lsn` minus the start of the track the loop selects and
stands for that difference when the track starts at or before `lsn`. -/
theorem lsn_to_msf_roundtrip (lsn : Nat) (h : lsn < 450000) :
    validBCD (lsn_to_msf lsn).1 ∧ validBCD (lsn_to_msf lsn).2.1
      ∧ validBCD (lsn_to_msf lsn).2.2
      ∧ bcdValue (lsn_to_msf lsn).2.2 < 75
      ∧ bcdValue (lsn_to_msf lsn).2.1 < 60
      ∧ bcdValue (lsn_to_msf lsn).1 < 100
      ∧ 75 * (60 * bcdValue (lsn_to_msf lsn).1 + bcdValue (lsn_to_msf lsn).2.1)
          + bcdValue (lsn_to_msf lsn).2.2 = lsn
      ∧ ∀ (sectorCount strack etrack : Nat) (tracks : Nat → cdvdTrack)
          (rd : Option (Nat × Nat × Nat)),
          (sectorCount % 2 ^ 32 ≤ lsn →
            DISCreadSubQ sectorCount strack etrack tracks rd lsn = none)
          ∧ (lsn < sectorCount % 2 ^ 32 →
            ∃ q i, DISCreadSubQ sectorCount strack etrack tracks rd lsn = some q
              ∧ i = trackLoop (etrack % 256) tracks lsn (etrack % 256 - strack % 256)
                  (strack % 256)
              ∧ ¬ (i < etrack % 256 ∧ (tracks (i + 1)).start_lba % 2 ^ 32 ≤ lsn)
              ∧ (q.discM, q.discS, q.discF) = lsn_to_msf (lsn + 150)
              ∧ msfValue (q.discM, q.discS, q.discF) = (lsn + 150) % 450000
              ∧ (q.trackM, q.trackS, q.trackF)
                  = lsn_to_msf ((lsn + 2 ^ 32 - (tracks i).start_lba % 2 ^ 32) % 2 ^ 32)
              ∧ ((tracks i).start_lba ≤ lsn →
                  msfValue (q.trackM, q.trackS, q.trackF) = lsn - (tracks i).start_lba)) := by
  have h32 : lsn % 2 ^ 32 = lsn := Nat.mod_eq_of_lt (by omega)
  have h150 : (lsn + 150) % 2 ^ 32 = lsn + 150 := Nat.mod_eq_of_lt (by omega)
  obtain ⟨v1, v2, v3, b3, b2, b1, hv⟩ := lsn_to_msf_value lsn (by omega)
  refine ⟨v1, v2, v3, b3, b2, b1, ?_, ?_⟩
  · unfold msfValue at hv
    rw [hv]
    omega
  · intro sectorCount strack etrack tracks rd
    constructor
    · intro hge
      unfold DISCreadSubQ
      simp only [h32]
      rw [if_pos hge]
    · intro hlt
      have hnge : ¬ lsn ≥ sectorCount % 2 ^ 32 := by omega
      have hdisc := (lsn_to_msf_value (lsn + 150) (by omega)).2.2.2.2.2.2
      have htrack : (tracks (trackLoop (etrack % 256) tracks lsn
            (etrack % 256 - strack % 256) (strack % 256))).start_lba ≤ lsn →
          msfValue (lsn_to_msf ((lsn + 2 ^ 32 - (tracks (trackLoop (etrack % 256) tracks lsn
            (etrack % 256 - strack % 256) (strack % 256))).start_lba % 2 ^ 32) % 2 ^ 32))
            = lsn - (tracks (trackLoop (etrack % 256) tracks lsn
              (etrack % 256 - strack % 256) (strack % 256))).start_lba := by
        intro hle
        generalize (tracks (trackLoop (etrack % 256) tracks lsn
          (etrack % 256 - strack % 256) (strack % 256))).start_lba = st at hle ⊢
        have hs : st % 2 ^ 32 = st := Nat.mod_eq_of_lt (by omega)
        have hd : (lsn + 2 ^ 32 - st) % 2 ^ 32 = lsn - st := by omega
        rw [hs, hd, (lsn_to_msf_value (lsn - st) (by omega)).2.2.2.2.2.2]
        omega
      have hexit := trackLoop_exit (etrack % 256) tracks lsn
        (etrack % 256 - strack % 256) (strack % 256) (le_refl _)
      unfold DISCreadSubQ
      simp only [h32, h150, if_neg hnge]
      cases rd with
      | none => exact ⟨_, _, rfl, rfl, hexit, rfl, hdisc, rfl, htrack⟩
      | some r => exact ⟨_, _, rfl, rfl, hexit, rfl, hdisc, rfl, htrack⟩

/-- Witness of the amended C23: sector 123456 is 27 minutes, 26 seconds,
6 frames. -/
theorem lsn_to_msf_roundtrip_witness :
    123456 < 450000
      ∧ lsn_to_msf 123456 = (0x27, 0x26, 0x06)
      ∧ 75 * (60 * bcdValue (lsn_to_msf 123456).1 + bcdValue (lsn_to_msf 123456).2.1)
          + bcdValue (lsn_to_msf 123456).2.2 = 123456
      ∧ (DISCreadSubQ 200000 1 3 threeTracks none 123456).map
          (fun q => (q.discM, q.discS, q.discF)) = some (lsn_to_msf (123456 + 150)) :=
  ⟨by decide, by decide, (lsn_to_msf_roundtrip 123456 (by decide)).2.2.2.2.2.2.1, by decide⟩

end CDVD
